import Mathlib

/-!
# Security-Overhead-Benchmark: a shallow embedding of `src/main.cpp`

The program parses three numeric parameters from its command line, prints a
banner, and times four small workloads with a warm-up/measure harness.  Every
workload feeds a process-wide 64-bit accumulator (`g_sink`) through `consume`.

Modelling conventions

* `std::uint64_t` and `std::size_t` are natural numbers kept below `2^64`
  (the LP64 data model: `unsigned long long` and `size_t` are 64 bits wide,
  `int` is 32 bits wide); every arithmetic step that can wrap is reduced
  modulo `2^64` explicitly.
* `argv` is a list of strings; `argv[0]` is the program name.
* The C and C++ library routines the program calls (`std::stoull`,
  `std::snprintf`, `std::memcpy`, `std::malloc`, `steady_clock::now`,
  the constructor of `std::vector<char>`, `operator<<`) are modelled after
  their standard behaviour.  Whatever is decided by the environment (clock
  readings, the text `operator<<` produces for a `double`, whether a request
  to the heap succeeds, whether plain `char` is signed) is a field of `Env`.
* A `std::vector<char>` of more than `max_size()` elements is never built
  (`std::length_error`), and one whose memory the heap refuses is not built
  either (`std::bad_alloc`); nothing catches these exceptions, so they end
  the process like `std::abort` does.
* Memory is a list of bytes with bounds-checked accesses: an access outside a
  buffer is the fault `out_of_bounds`.
* Fields of `Machine` marked *ghost* only record what happened (the values
  passed to `consume`, the sizes of the buffers that were created, the sizes
  passed to `malloc`); no modelled code reads them.
-/

namespace SecBench

/-! ## Machine integers -/

/-- The modulus of `std::uint64_t`, `2^64`. -/
def U64_MOD : Nat := 18446744073709551616

/-- The conversion `static_cast<int>(i)` of a 64-bit unsigned value: the low 32
bits, read as a two's complement number. -/
def to_int (i : Nat) : Int :=
  if i % 4294967296 < 2147483648 then ((i % 4294967296 : Nat) : Int)
  else ((i % 4294967296 : Nat) : Int) - 4294967296

/-- The conversion `static_cast<std::uint64_t>(x)` of an `int`: `x` modulo `2^64`. -/
def int_to_u64 (x : Int) : Nat := (x % (U64_MOD : Int)).toNat

/-! ## `std::stoull` -/

/-- The two exceptions `std::stoull` throws. -/
inductive ParseError where
  | invalid_argument
  | out_of_range
  deriving DecidableEq, Repr

/-- The white-space characters of `isspace` in the "C" locale: space, `\t`,
`\n`, `\v`, `\f`, `\r`. -/
def isspace (c : Char) : Bool :=
  c = ' ' || c = Char.ofNat 9 || c = Char.ofNat 10 || c = Char.ofNat 11 ||
    c = Char.ofNat 12 || c = Char.ofNat 13

/-- A decimal digit, `0` to `9`. -/
def isdigit (c : Char) : Bool := decide (48 ≤ c.toNat) && decide (c.toNat ≤ 57)

/-- The value of a decimal digit character. -/
def digit_value (c : Char) : Nat := c.toNat - 48

/-- The number a run of decimal digits denotes (most significant digit first). -/
def decimal_value (ds : List Char) : Nat :=
  ds.foldl (fun acc c => acc * 10 + digit_value c) 0

/-- The optional sign `strtoull` accepts in front of the digits: whether it was
a minus sign, and what follows it. -/
def strip_sign : List Char → Bool × List Char
  | '-' :: r => (true, r)
  | '+' :: r => (false, r)
  | r => (false, r)

/-- The call `std::stoull(str)` (base 10, no `pos`), which is `strtoull` with
its two failures turned into exceptions: leading white space is skipped, one
optional sign is accepted, the longest run of digits is converted and whatever
follows it is ignored.  No digit at all throws `invalid_argument`; a digit run
whose value does not fit in 64 bits throws `out_of_range`; a minus sign negates
the value in the unsigned type. -/
def stoull (s : String) : Except ParseError Nat :=
  let body := strip_sign (s.data.dropWhile isspace)
  let ds := body.2.takeWhile isdigit
  if ds = [] then .error .invalid_argument
  else if U64_MOD ≤ decimal_value ds then .error .out_of_range
  else .ok (if body.1 then (U64_MOD - decimal_value ds) % U64_MOD else decimal_value ds)

/-! ## `Args` and `parse_args` -/

/-- The parameter set, with the defaults of the member initialisers. -/
structure Args where
  iters : Nat := 50000000
  buf_size : Nat := 64
  malloc_size : Nat := 32
  deriving DecidableEq, Repr

/-- How a call of `parse_args` ends: it returns a parameter set, it calls
`std::exit` after writing `out` to standard output, or an exception of
`std::stoull` leaves it. -/
inductive ParseOutcome where
  | returned (a : Args)
  | exited (out : String) (status : Int)
  | thrown (e : ParseError)
  deriving DecidableEq, Repr

/-- The raw string literal printed for `--help` and `-h`. -/
def usage_text : String :=
  "Usage:\n  ./main [--iters N] [--buf B] [--malloc M]\n\nOptions:\n  --iters, -n   Number of loop iterations per test (default 50,000,000)\n  --buf         Stack buffer size for snprintf/memcpy (default 64)\n  --malloc      Allocation size for malloc/free (default 32)\n"

/-- The loop of `parse_args` over the tokens from `argv[i]` on.  A flag that
expects a value consumes the next token when there is one (`i + 1 < argc`) and
converts it with `stoull`; when there is none the flag does nothing and the
loop ends. -/
def parse_loop (a : Args) : List String → ParseOutcome
  | [] => .returned a
  | s :: rest =>
    if s = "--iters" ∨ s = "-n" then
      match rest with
      | [] => .returned a
      | v :: rest' =>
        match stoull v with
        | .ok n => parse_loop { a with iters := n } rest'
        | .error e => .thrown e
    else if s = "--buf" then
      match rest with
      | [] => .returned a
      | v :: rest' =>
        match stoull v with
        | .ok n => parse_loop { a with buf_size := n } rest'
        | .error e => .thrown e
    else if s = "--malloc" then
      match rest with
      | [] => .returned a
      | v :: rest' =>
        match stoull v with
        | .ok n => parse_loop { a with malloc_size := n } rest'
        | .error e => .thrown e
    else if s = "--help" ∨ s = "-h" then .exited usage_text 0
    else parse_loop a rest

/-- The function `parse_args(argc, argv)`: the loop starts at `argv[1]` with the
default parameter set. -/
def parse_args (argv : List String) : ParseOutcome := parse_loop {} (argv.drop 1)

/-! ## The machine state, the sink and the memory model -/

/-- What the environment decides. -/
structure Env where
  /-- The reading `steady_clock::now()` returns at its `k`-th call, in ticks. -/
  clock : Nat → Nat
  /-- The text `operator<<` writes for an elapsed time (a `double`). -/
  fmt_ms : Int → String
  /-- Whether the `k`-th request to the heap, for `size` bytes, succeeds: a call
  of `malloc`, or the allocation of a `std::vector<char>`, whose `operator new`
  takes its memory from `malloc`. -/
  malloc_ok : Nat → Nat → Bool
  /-- Whether plain `char` is a signed type. -/
  char_signed : Bool

/-- The state of the process. -/
structure Machine where
  /-- The accumulator `g_sink`. -/
  g_sink : Nat
  /-- What was written to `std::cout`. -/
  cout : String
  /-- The number of calls of `steady_clock::now()` so far. -/
  now_calls : Nat
  /-- The number of requests to the heap so far. -/
  malloc_calls : Nat
  /-- Ghost: the values passed to `consume`, oldest first. -/
  sunk : List Nat
  /-- Ghost: the sizes of the `std::vector<char>` buffers created, oldest first. -/
  buffers : List Nat
  /-- Ghost: the sizes passed to `malloc`, oldest first. -/
  mallocs : List Nat
  deriving DecidableEq, Repr

/-- The state of a process that has done nothing yet and whose accumulator
holds `g0`. -/
def Machine.start (g0 : Nat) : Machine :=
  { g_sink := g0, cout := "", now_calls := 0, malloc_calls := 0,
    sunk := [], buffers := [], mallocs := [] }

/-- The state at the start of `main`: `g_sink` is zero-initialised. -/
def Machine.initial : Machine := Machine.start 0

/-- Abnormal ends of a workload: an access outside a buffer, `std::abort`, and
the two exceptions the constructor of `std::vector<char>` throws. -/
inductive Fault where
  | out_of_bounds
  | abort
  | length_error
  | bad_alloc
  deriving DecidableEq, Repr

/-- The value of `std::vector<char>::max_size()`, `PTRDIFF_MAX`, which is
`2^63 - 1` in the LP64 data model. -/
def VECTOR_MAX_SIZE : Nat := 9223372036854775807

/-- The function `consume(v)`: `g_sink += v` in 64-bit unsigned arithmetic.
The fence `clobber_memory` has no effect on the state. -/
def consume (v : Nat) (m : Machine) : Machine :=
  { m with g_sink := (m.g_sink + v) % U64_MOD, sunk := m.sunk ++ [v] }

/-- The function `empty_function(x)`. -/
def empty_function (x : Int) (m : Machine) : Machine := consume (int_to_u64 x) m

/-- Writing to `std::cout`. -/
def print (s : String) (m : Machine) : Machine := { m with cout := m.cout ++ s }

/-- The constructor `std::vector<char>(n, fill)`: it throws `std::length_error`
when `n` exceeds `max_size()`, and `std::bad_alloc` when the heap does not
provide the `n` bytes. -/
def vector_new (env : Env) (n fill : Nat) (m : Machine) : Except Fault (List Nat × Machine) :=
  if VECTOR_MAX_SIZE < n then .error .length_error
  else if env.malloc_ok m.malloc_calls n then
    .ok (List.replicate n fill,
      { m with malloc_calls := m.malloc_calls + 1, buffers := m.buffers ++ [n] })
  else .error .bad_alloc

/-- Reading byte `idx` of a buffer. -/
def load (buf : List Nat) (idx : Nat) : Except Fault Nat :=
  match buf.get? idx with
  | some b => .ok b
  | none => .error .out_of_bounds

/-- Writing byte `idx` of a buffer. -/
def store (buf : List Nat) (idx : Nat) (b : Nat) : Except Fault (List Nat) :=
  if idx < buf.length then .ok (buf.set idx b) else .error .out_of_bounds

/-- Writing `bytes` to consecutive positions of a buffer, from `start` on. -/
def store_bytes (buf : List Nat) (start : Nat) : List Nat → Except Fault (List Nat)
  | [] => .ok buf
  | b :: bs =>
    match store buf start b with
    | .ok buf' => store_bytes buf' (start + 1) bs
    | .error f => .error f

/-- The bytes of the decimal text of `v`, as `%llu` and `operator<<` write it. -/
def decimal_text (v : Nat) : List Nat := (Nat.toDigits 10 v).map Char.toNat

/-- The call `std::snprintf(s, n, "%llu", v)` on the buffer `buf` that `s`
points to: when `n` is not zero, the first `n - 1` characters of the decimal
text of `v` are stored, followed by a zero byte. -/
def snprintf_llu (buf : List Nat) (n : Nat) (v : Nat) : Except Fault (List Nat) :=
  if n = 0 then .ok buf
  else store_bytes buf 0 ((decimal_text v).take (n - 1) ++ [0])

/-- The call `std::memcpy(dst, src, count)`. -/
def memcpy (dst src : List Nat) (count : Nat) : Except Fault (List Nat) :=
  if count ≤ src.length ∧ count ≤ dst.length then .ok (src.take count ++ dst.drop count)
  else .error .out_of_bounds

/-- The conversion `static_cast<std::uint64_t>(c)` of a plain `char` holding
the byte `b`: sign-extended where `char` is signed. -/
def char_to_u64 (env : Env) (b : Nat) : Nat :=
  if env.char_signed ∧ 128 ≤ b % 256 then U64_MOD - 256 + b % 256 else b % 256

/-- The call `std::malloc(sz)`: a block of `sz` bytes, or a null pointer. -/
def malloc (env : Env) (sz : Nat) (m : Machine) : Option (List Nat) × Machine :=
  (if env.malloc_ok m.malloc_calls sz then some (List.replicate sz 0) else none,
   { m with malloc_calls := m.malloc_calls + 1, mallocs := m.mallocs ++ [sz] })

/-- The loop `for (std::uint64_t i = 0; i < N; ++i) body`. -/
def for_loop (N : Nat) (body : Nat → Machine → Except Fault Machine) (m : Machine) :
    Except Fault Machine :=
  (List.range N).foldlM (fun m i => body i m) m

/-! ## The four workloads of `main` -/

/-- The body of workload 1, `empty_function(static_cast<int>(i))`. -/
def calls_body (i : Nat) (m : Machine) : Except Fault Machine :=
  .ok (empty_function (to_int i) m)

/-- Workload 1, "empty function calls". -/
def calls_workload (N : Nat) (m : Machine) : Except Fault Machine :=
  for_loop N calls_body m

/-- The body of workload 2: a fresh buffer of `max(buf_size, 16)` zero bytes,
`snprintf` of the index into it, and `consume` of its first byte.  The buffer
is released at the end of the iteration. -/
def snprintf_body (env : Env) (args : Args) (i : Nat) (m : Machine) : Except Fault Machine :=
  match vector_new env (max args.buf_size 16) 0 m with
  | .error f => .error f
  | .ok (buf, m1) =>
    match snprintf_llu buf buf.length i with
    | .error f => .error f
    | .ok buf' =>
      match load buf' 0 with
      | .error f => .error f
      | .ok c => .ok (consume (char_to_u64 env c) m1)

/-- Workload 2, "snprintf to stack buffer". -/
def snprintf_workload (env : Env) (args : Args) (N : Nat) (m : Machine) : Except Fault Machine :=
  for_loop N (snprintf_body env args) m

/-- The body of workload 3: a source buffer of `max(buf_size, 16)` bytes `x`, a
destination buffer of the same size, `memcpy` of the whole source, and `consume`
of the first destination byte. -/
def memcpy_body (env : Env) (args : Args) (_i : Nat) (m : Machine) : Except Fault Machine :=
  match vector_new env (max args.buf_size 16) 120 m with
  | .error f => .error f
  | .ok (src, m1) =>
    match vector_new env src.length 0 m1 with
    | .error f => .error f
    | .ok (dst, m2) =>
      match memcpy dst src src.length with
      | .error f => .error f
      | .ok dst' =>
        match load dst' 0 with
        | .error f => .error f
        | .ok c => .ok (consume (char_to_u64 env c) m2)

/-- Workload 3, "memcpy on stack buffer". -/
def memcpy_workload (env : Env) (args : Args) (N : Nat) (m : Machine) : Except Fault Machine :=
  for_loop N (memcpy_body env args) m

/-- The body of workload 4 for the block size `sz`: `malloc(sz)`, `abort` on a
null pointer, the low byte of the index stored in byte 0 and read back as an
`unsigned char`, `consume`, `free`. -/
def malloc_body (env : Env) (sz : Nat) (i : Nat) (m : Machine) : Except Fault Machine :=
  match malloc env sz m with
  | (none, _) => .error .abort
  | (some p, m1) =>
    match store p 0 (i % 256) with
    | .error f => .error f
    | .ok p' =>
      match load p' 0 with
      | .error f => .error f
      | .ok b => .ok (consume (b % 256) m1)

/-- Workload 4, "malloc/free small blocks": `sz` is `max(malloc_size, 8)`. -/
def malloc_workload (env : Env) (args : Args) (N : Nat) (m : Machine) : Except Fault Machine :=
  for_loop N (malloc_body env (max args.malloc_size 8)) m

/-! ## `bench` and `main` -/

/-- Ghost record of what `bench` itself does, in order. -/
inductive BenchEvent where
  | invoke (n : Nat)
  | timestamp (t : Nat)
  deriving DecidableEq, Repr

/-- What a call of `bench` that returns leaves behind: the value it returns
(the tick difference the `double` is computed from), the machine state, and the
ghost record of its invocations and clock readings. -/
structure BenchRun where
  ms : Int
  machine : Machine
  log : List BenchEvent
  deriving DecidableEq, Repr

/-- The call `std::chrono::steady_clock::now()`. -/
def steady_now (env : Env) (m : Machine) : Nat × Machine :=
  (env.clock m.now_calls, { m with now_calls := m.now_calls + 1 })

/-- One invocation `fn(n)` by `bench`, recorded in the ghost log. -/
def invoke (fn : Nat → Machine → Except Fault Machine) (n : Nat)
    (st : Machine × List BenchEvent) : Except Fault (Machine × List BenchEvent) :=
  match fn n st.1 with
  | .ok m => .ok (m, st.2 ++ [.invoke n])
  | .error f => .error f

/-- The line `bench` prints. -/
def bench_line (env : Env) (name : String) (ms : Int) : String :=
  name ++ ": " ++ env.fmt_ms ms ++ " ms\n"

/-- The function template `bench(name, iters, fn)`. -/
def bench (env : Env) (name : String) (iters : Nat)
    (fn : Nat → Machine → Except Fault Machine) (m : Machine) : Except Fault BenchRun :=
  match (List.range 3).foldlM (fun st _ => invoke fn 1000 st) (m, []) with
  | .error f => .error f
  | .ok st =>
    let (t0, m0) := steady_now env st.1
    match invoke fn iters (m0, st.2 ++ [.timestamp t0]) with
    | .error f => .error f
    | .ok st1 =>
      let (t1, m1) := steady_now env st1.1
      let ms : Int := (t1 : Int) - (t0 : Int)
      .ok { ms := ms, machine := print (bench_line env name ms) m1,
            log := st1.2 ++ [.timestamp t1] }

/-- The banner `main` prints first. -/
def banner (a : Args) : String :=
  "Iters = " ++ toString a.iters ++ ", buf size = " ++ toString a.buf_size ++
    ", malloc size = " ++ toString a.malloc_size ++ "\n\n"

/-- The value `main` returns, `(int)(g_sink & 0)`. -/
def exit_status (g : Nat) : Int := to_int (g &&& 0)

/-- How a run of the program ends. -/
inductive RunResult where
  /-- `main` returned `status`; `cout` is everything written to standard output. -/
  | returned (status : Int) (cout : String)
  /-- `std::exit(status)` was called; `cout` is everything written before. -/
  | exited (status : Int) (cout : String)
  /-- An exception left `main`; nothing had been written. -/
  | terminated (e : ParseError)
  /-- A workload aborted, let an exception escape, or left its buffer. -/
  | fault (f : Fault)
  deriving DecidableEq, Repr

/-- The four `bench` calls of `main`, in order, from the machine state `m`. -/
def run_benchmarks (env : Env) (args : Args) (m : Machine) : Except Fault Machine :=
  match bench env "1) empty function calls" args.iters calls_workload m with
  | .error f => .error f
  | .ok r1 =>
    match bench env "2) snprintf to stack buffer" args.iters (snprintf_workload env args)
        r1.machine with
    | .error f => .error f
    | .ok r2 =>
      match bench env "3) memcpy on stack buffer" args.iters (memcpy_workload env args)
          r2.machine with
      | .error f => .error f
      | .ok r3 =>
        match bench env "4) malloc/free small blocks" args.iters (malloc_workload env args)
            r3.machine with
        | .error f => .error f
        | .ok r4 => .ok r4.machine

/-- The body of `main` when the accumulator holds `g0` at its start. -/
def main_from (env : Env) (g0 : Nat) (argv : List String) : RunResult :=
  match parse_args argv with
  | .thrown e => .terminated e
  | .exited out status => .exited status out
  | .returned args =>
    match run_benchmarks env args (print (banner args) (Machine.start g0)) with
    | .error f => .fault f
    | .ok m => .returned (exit_status m.g_sink) m.cout

/-- The function `main(argc, argv)`: `g_sink` starts at zero. -/
def main (env : Env) (argv : List String) : RunResult := main_from env 0 argv

/-! ## Vocabulary of the statements about `parse_args` -/

/-- A flag that expects a value: `--iters`, `-n`, `--buf`, `--malloc`. -/
def value_flag (s : String) : Bool :=
  decide (s = "--iters") || decide (s = "-n") || decide (s = "--buf") || decide (s = "--malloc")

/-- A help flag: `--help`, `-h`. -/
def help_flag (s : String) : Bool := decide (s = "--help") || decide (s = "-h")

/-- A plain decimal number that fits in 64 bits: one or more digits, nothing
else, with a value below `2^64`. -/
def plain_number (v : String) : Prop :=
  v.data ≠ [] ∧ (∀ c ∈ v.data, isdigit c = true) ∧ decimal_value v.data < U64_MOD

/-- The digits `std::stoull` converts: what is left of the token after leading
white space and one optional sign, up to the first character that is no digit. -/
def leading_digits (v : String) : List Char :=
  (strip_sign (v.data.dropWhile isspace)).2.takeWhile isdigit

/-- The tokens of a list of flag/value pairs. -/
def pair_tokens : List (String × String) → List String
  | [] => []
  | p :: ps => p.1 :: p.2 :: pair_tokens ps

/-- A well-formed flag/value pair: a flag that expects a value, and a plain
number. -/
def well_formed_pair (p : String × String) : Prop := value_flag p.1 = true ∧ plain_number p.2

/-- The value of the last pair whose flag is one of `flags`, `dflt` when there
is none. -/
def last_value (flags : List String) (dflt : Nat) (ps : List (String × String)) : Nat :=
  match (ps.filter (fun p => decide (p.1 ∈ flags))).getLast? with
  | some p => decimal_value p.2.data
  | none => dflt

/-- How the loop of `parse_args` reads a position of the argument list. -/
inductive Slot where
  /-- The loop reaches the position with `i` equal to it: a token there is
  compared with the flags. -/
  | flag
  /-- The position directly follows a value-expecting flag read in flag
  position: a token there is passed to `std::stoull`. -/
  | value
  /-- The loop has ended before the position, by `std::exit` or an exception. -/
  | unread
  deriving DecidableEq, Repr

/-- How the loop of `parse_args`, started on `args`, reads position `k`. -/
def slot : List String → Nat → Slot
  | _, 0 => .flag
  | [], _ + 1 => .unread
  | s :: rest, k + 1 =>
    if value_flag s then
      match k, rest with
      | 0, _ => .value
      | _ + 1, [] => .unread
      | k' + 1, v :: rest' =>
        match stoull v with
        | .ok _ => slot rest' k'
        | .error _ => .unread
    else if help_flag s then .unread
    else slot rest k

/-- The list `args` with the token `t` inserted at position `k`. -/
def insert_at (args : List String) (k : Nat) (t : String) : List String :=
  args.take k ++ t :: args.drop k

/-- The buffer size workloads 2 and 3 use, `std::max<std::size_t>(buf_size, 16)`. -/
@[reducible]
def buffer_size (args : Args) : Nat := max args.buf_size 16

/-- The block size workload 4 asks for, `std::max<std::size_t>(malloc_size, 8)`. -/
@[reducible]
def block_size (args : Args) : Nat := max args.malloc_size 8

/-- The arguments of the invocations a log of `bench` records, in order. -/
def invocations : List BenchEvent → List Nat
  | [] => []
  | .invoke n :: es => n :: invocations es
  | .timestamp _ :: es => invocations es

/-- An environment for concrete runs: the clock advances by ten ticks between
two readings, every allocation succeeds, `char` is signed. -/
def sample_env : Env :=
  { clock := fun k => 10 * k, fmt_ms := fun d => toString d, malloc_ok := fun _ _ => true,
    char_signed := true }

/-! ## Auxiliary definitions of the proofs -/

/-- The assignment a value-expecting flag makes. -/
def assign (f : String) (n : Nat) (a : Args) : Args :=
  if f = "--iters" ∨ f = "-n" then { a with iters := n }
  else if f = "--buf" then { a with buf_size := n }
  else if f = "--malloc" then { a with malloc_size := n }
  else a

/-- The meaning of `slot args k` for the loop started on any list that begins
with the first `k` tokens of `args`. -/
def slot_meaning (args : List String) (k : Nat) (a : Args) : Slot → Prop
  | .flag => ∃ a', ∀ tail, parse_loop a (args.take k ++ tail) = parse_loop a' tail
  | .unread => ∃ o, ∀ tail, parse_loop a (args.take k ++ tail) = o
  | .value => True

/-- The first byte of the decimal text of `v`. -/
def first_byte (v : Nat) : Nat := (decimal_text v).headD 0

/-- The state after a `std::vector<char>` of `n` bytes was built. -/
def after_vector (n : Nat) (m : Machine) : Machine :=
  { m with malloc_calls := m.malloc_calls + 1, buffers := m.buffers ++ [n] }

/-- The accumulator after the values `vs` were added to `g`. -/
def sink_after (g : Nat) (vs : List Nat) : Nat := (g + vs.sum) % U64_MOD

/-- What `bench` returns once its four invocations have returned `m1`, `m2`,
`m3` (warm-up) and `m4` (timed). -/
def bench_result (env : Env) (name : String) (n : Nat) (m3 m4 : Machine) : BenchRun :=
  { ms := (env.clock m4.now_calls : Int) - (env.clock m3.now_calls : Int),
    machine := print
      (bench_line env name ((env.clock m4.now_calls : Int) - (env.clock m3.now_calls : Int)))
      (steady_now env m4).2,
    log := [.invoke 1000, .invoke 1000, .invoke 1000, .timestamp (env.clock m3.now_calls),
      .invoke n, .timestamp (env.clock m4.now_calls)] }

/-- Two machine states that differ at most in the accumulator and the ghost
fields. -/
def agree (m1 m2 : Machine) : Prop :=
  m1.cout = m2.cout ∧ m1.now_calls = m2.now_calls ∧ m1.malloc_calls = m2.malloc_calls

/-- Two outcomes of a workload that end the same way, in agreeing states. -/
def outcome_agree (x y : Except Fault Machine) : Prop :=
  (∃ a b, x = .ok a ∧ y = .ok b ∧ agree a b) ∨ (∃ e, x = .error e ∧ y = .error e)

/-- Two outcomes of `bench` that end the same way, with the same elapsed value,
in agreeing states. -/
def bench_agree (x y : Except Fault BenchRun) : Prop :=
  (∃ a b, x = .ok a ∧ y = .ok b ∧ a.ms = b.ms ∧ agree a.machine b.machine) ∨
    (∃ e, x = .error e ∧ y = .error e)

/-- A workload whose outcome does not depend on the accumulator. -/
def respects (fn : Nat → Machine → Except Fault Machine) : Prop :=
  ∀ n m1 m2, agree m1 m2 → outcome_agree (fn n m1) (fn n m2)

/-- A workload that writes nothing to standard output. -/
def quiet (fn : Nat → Machine → Except Fault Machine) : Prop :=
  ∀ n m m', fn n m = .ok m' → m'.cout = m.cout

/-- A workload that always returns. -/
def total (fn : Nat → Machine → Except Fault Machine) : Prop :=
  ∀ n m, ∃ m', fn n m = .ok m'

/-- The four lines of a run whose elapsed values are `t1` to `t4`. -/
def report_lines (env : Env) (t1 t2 t3 t4 : Int) : String :=
  bench_line env "1) empty function calls" t1 ++
    bench_line env "2) snprintf to stack buffer" t2 ++
    bench_line env "3) memcpy on stack buffer" t3 ++
    bench_line env "4) malloc/free small blocks" t4

instance (v : String) : Decidable (plain_number v) := by
  unfold plain_number; infer_instance

instance (p : String × String) : Decidable (well_formed_pair p) := by
  unfold well_formed_pair; infer_instance

/-! # Theorems -/

/-! ## `std::stoull` on plain numbers -/

theorem isdigit_not_isspace {c : Char} (h : isdigit c = true) : isspace c = false := by
  have h1 : 48 ≤ c.toNat := by
    simp only [isdigit, Bool.and_eq_true, decide_eq_true_eq] at h; exact h.1
  cases hs : isspace c with
  | false => rfl
  | true =>
    exfalso
    simp only [isspace, Bool.or_eq_true, decide_eq_true_eq] at hs
    rcases hs with ((((hs | hs) | hs) | hs) | hs) | hs <;> (subst hs; revert h1; decide)

theorem strip_sign_digit {c : Char} (h : isdigit c = true) (r : List Char) :
    strip_sign (c :: r) = (false, c :: r) := by
  have h1 : 48 ≤ c.toNat := by
    simp only [isdigit, Bool.and_eq_true, decide_eq_true_eq] at h; exact h.1
  unfold strip_sign
  split
  · rename_i heq
    injection heq with hc _
    subst hc; exact absurd h1 (by decide)
  · rename_i heq
    injection heq with hc _
    subst hc; exact absurd h1 (by decide)
  · rfl

theorem takeWhile_all {p : Char → Bool} :
    ∀ l : List Char, (∀ c ∈ l, p c = true) → l.takeWhile p = l
  | [], _ => rfl
  | c :: l, h => by
    have hc : p c = true := h c (List.mem_cons_self _ _)
    have hl : ∀ d ∈ l, p d = true := fun d hd => h d (List.mem_cons_of_mem _ hd)
    rw [List.takeWhile_cons, hc]
    simp [takeWhile_all l hl]

theorem leading_digits_plain {v : String} (h : plain_number v) :
    strip_sign (v.data.dropWhile isspace) = (false, v.data) ∧ leading_digits v = v.data := by
  obtain ⟨hne, hall, _⟩ := h
  unfold leading_digits
  cases hv : v.data with
  | nil => exact absurd hv hne
  | cons c r =>
    rw [hv] at hall
    have hc : isdigit c = true := hall c (List.mem_cons_self _ _)
    have hdrop : (c :: r).dropWhile isspace = c :: r := by
      rw [List.dropWhile_cons, isdigit_not_isspace hc]; rfl
    rw [hdrop, strip_sign_digit hc]
    exact ⟨rfl, takeWhile_all _ hall⟩

theorem stoull_plain {v : String} (h : plain_number v) :
    stoull v = .ok (decimal_value v.data) := by
  obtain ⟨h1, _⟩ := leading_digits_plain h
  have h3 : v.data.takeWhile isdigit = v.data := takeWhile_all _ h.2.1
  unfold stoull
  simp only [h1, h3]
  rw [if_neg h.1, if_neg (Nat.not_le.mpr h.2.2)]
  rfl

/-! ## One step of the loop of `parse_args` -/

theorem value_flag_cases {f : String} (h : value_flag f = true) :
    f = "--iters" ∨ f = "-n" ∨ f = "--buf" ∨ f = "--malloc" := by
  simp only [value_flag, Bool.or_eq_true, decide_eq_true_eq] at h
  tauto

theorem help_flag_cases {f : String} (h : help_flag f = true) : f = "--help" ∨ f = "-h" := by
  simp only [help_flag, Bool.or_eq_true, decide_eq_true_eq] at h
  exact h

theorem parse_loop_skip (a : Args) {t : String} (rest : List String)
    (hv : value_flag t = false) (hh : help_flag t = false) :
    parse_loop a (t :: rest) = parse_loop a rest := by
  simp only [value_flag, help_flag, Bool.or_eq_false_iff, decide_eq_false_iff_not] at hv hh
  obtain ⟨⟨⟨h1, h2⟩, h3⟩, h4⟩ := hv
  obtain ⟨h5, h6⟩ := hh
  rw [parse_loop.eq_def]
  simp [h1, h2, h3, h4, h5, h6]

theorem parse_loop_help (a : Args) {t : String} (rest : List String) (hh : help_flag t = true) :
    parse_loop a (t :: rest) = .exited usage_text 0 := by
  rcases help_flag_cases hh with h | h <;> subst h <;> rw [parse_loop.eq_def] <;> simp

theorem parse_loop_last (a : Args) {f : String} (hv : value_flag f = true) :
    parse_loop a [f] = .returned a := by
  rcases value_flag_cases hv with h | h | h | h <;> subst h <;> rw [parse_loop.eq_def] <;> simp

theorem parse_loop_value (a : Args) {f : String} (v : String) (rest : List String)
    (hv : value_flag f = true) :
    parse_loop a (f :: v :: rest) =
      match stoull v with
      | .ok n => parse_loop (assign f n a) rest
      | .error e => .thrown e := by
  rcases value_flag_cases hv with h | h | h | h <;> subst h <;> rw [parse_loop.eq_def] <;>
    simp [assign]

/-! ## Runs of well-formed pairs -/

theorem last_value_cons (flags : List String) (dflt : Nat) (p : String × String)
    (ps : List (String × String)) :
    last_value flags dflt (p :: ps) =
      last_value flags (if p.1 ∈ flags then decimal_value p.2.data else dflt) ps := by
  unfold last_value
  by_cases hp : p.1 ∈ flags
  · rw [List.filter_cons_of_pos (by simpa using hp), List.getLast?_cons, if_pos hp]
    cases (ps.filter (fun p => decide (p.1 ∈ flags))).getLast? <;> rfl
  · rw [List.filter_cons_of_neg (by simpa using hp), if_neg hp]

theorem assign_fields {f : String} (hv : value_flag f = true) (n : Nat) (a : Args) :
    assign f n a =
      { iters := if f ∈ ["--iters", "-n"] then n else a.iters,
        buf_size := if f ∈ ["--buf"] then n else a.buf_size,
        malloc_size := if f ∈ ["--malloc"] then n else a.malloc_size } := by
  rcases value_flag_cases hv with h | h | h | h <;> subst h <;> simp [assign]

theorem parse_loop_pairs (ps : List (String × String)) :
    ∀ (a : Args) (tail : List String), (∀ p ∈ ps, well_formed_pair p) →
      parse_loop a (pair_tokens ps ++ tail) =
        parse_loop
          { iters := last_value ["--iters", "-n"] a.iters ps,
            buf_size := last_value ["--buf"] a.buf_size ps,
            malloc_size := last_value ["--malloc"] a.malloc_size ps } tail := by
  induction ps with
  | nil => intro a tail _; rfl
  | cons p ps ih =>
    intro a tail h
    have hp : well_formed_pair p := h p (List.mem_cons_self _ _)
    have hps : ∀ q ∈ ps, well_formed_pair q := fun q hq => h q (List.mem_cons_of_mem _ hq)
    show parse_loop a (p.1 :: p.2 :: (pair_tokens ps ++ tail)) = _
    rw [parse_loop_value a p.2 _ hp.1, stoull_plain hp.2]
    simp only
    rw [ih _ tail hps, assign_fields hp.1]
    simp only [last_value_cons]

/-! ## What a `Slot` says about the loop -/

theorem slot_sound : ∀ (k : Nat) (args : List String) (a : Args), k ≤ args.length →
    slot_meaning args k a (slot args k) := by
  intro k
  induction k using Nat.strong_induction_on with
  | _ k ih =>
    intro args a hk
    match k, args, hk with
    | 0, args, _ =>
      rw [slot]
      exact ⟨a, fun tail => by simp⟩
    | k + 1, [], hk => simp at hk
    | k + 1, s :: rest, hk =>
      rw [slot.eq_def]
      simp only
      by_cases hv : value_flag s = true
      · rw [if_pos hv]
        match k, rest, hk with
        | 0, rest, _ => trivial
        | k' + 1, [], hk => simp at hk
        | k' + 1, v :: rest', hk =>
          have hk' : k' ≤ rest'.length := by simpa using hk
          simp only
          cases hs : stoull v with
          | error e =>
            refine ⟨.thrown e, fun tail => ?_⟩
            simp only [List.take_succ_cons, List.cons_append]
            rw [parse_loop_value a v _ hv, hs]
          | ok n =>
            have h := ih k' (by omega) rest' (assign s n a) hk'
            cases hsl : slot rest' k' with
            | value => trivial
            | flag =>
              rw [hsl] at h
              obtain ⟨a', ha'⟩ := h
              refine ⟨a', fun tail => ?_⟩
              simp only [List.take_succ_cons, List.cons_append]
              rw [parse_loop_value a v _ hv, hs]
              exact ha' tail
            | unread =>
              rw [hsl] at h
              obtain ⟨o, ho⟩ := h
              refine ⟨o, fun tail => ?_⟩
              simp only [List.take_succ_cons, List.cons_append]
              rw [parse_loop_value a v _ hv, hs]
              exact ho tail
      · rw [if_neg hv]
        have hv' : value_flag s = false := by simpa using hv
        by_cases hh : help_flag s = true
        · rw [if_pos hh]
          refine ⟨.exited usage_text 0, fun tail => ?_⟩
          simp only [List.take_succ_cons, List.cons_append]
          exact parse_loop_help a _ hh
        · rw [if_neg hh]
          have hh' : help_flag s = false := by simpa using hh
          have hk' : k ≤ rest.length := by simpa using hk
          have h := ih k (by omega) rest a hk'
          cases hsl : slot rest k with
          | value => trivial
          | flag =>
            rw [hsl] at h
            obtain ⟨a', ha'⟩ := h
            refine ⟨a', fun tail => ?_⟩
            simp only [List.take_succ_cons, List.cons_append]
            rw [parse_loop_skip a _ hv' hh']
            exact ha' tail
          | unread =>
            rw [hsl] at h
            obtain ⟨o, ho⟩ := h
            refine ⟨o, fun tail => ?_⟩
            simp only [List.take_succ_cons, List.cons_append]
            rw [parse_loop_skip a _ hv' hh']
            exact ho tail

theorem slot_flag_sound {args : List String} {k : Nat} (a : Args) (hk : k ≤ args.length)
    (h : slot args k = .flag) :
    ∃ a', ∀ tail, parse_loop a (args.take k ++ tail) = parse_loop a' tail := by
  have := slot_sound k args a hk
  rw [h] at this
  exact this

theorem slot_unread_sound {args : List String} {k : Nat} (a : Args) (hk : k ≤ args.length)
    (h : slot args k = .unread) :
    ∃ o, ∀ tail, parse_loop a (args.take k ++ tail) = o := by
  have := slot_sound k args a hk
  rw [h] at this
  exact this

/-- A position is read as a value exactly when it directly follows a
value-expecting flag that is read in flag position. -/
theorem slot_value_iff : ∀ (k : Nat) (args : List String),
    slot args (k + 1) = .value ↔
      (slot args k = .flag ∧ ∃ f, args.get? k = some f ∧ value_flag f = true) := by
  intro k
  induction k using Nat.strong_induction_on with
  | _ k ih =>
    intro args
    match args with
    | [] =>
      rw [slot.eq_def]
      simp
    | s :: rest =>
      rw [slot.eq_def]
      simp only
      by_cases hv : value_flag s = true
      · rw [if_pos hv]
        match k, rest with
        | 0, rest =>
          simp only [List.get?_cons_zero, Option.some.injEq, exists_eq_left', hv, and_true,
            true_iff]
          rw [slot.eq_def]
        | k' + 1, [] =>
          simp
        | k' + 1, v :: rest' =>
          simp only [List.get?_cons_succ]
          rw [slot.eq_def (s :: v :: rest') (k' + 1)]
          simp only [if_pos hv]
          match k' with
          | 0 =>
            simp only
            cases hs : stoull v with
            | error e => simp
            | ok n =>
              simp only
              rw [slot.eq_def]
              simp
          | j + 1 =>
            simp only
            cases hs : stoull v with
            | error e => simp
            | ok n =>
              simp only
              exact ih j (by omega) rest'
      · rw [if_neg hv]
        have hv' : value_flag s = false := by simpa using hv
        by_cases hh : help_flag s = true
        · rw [if_pos hh]
          match k with
          | 0 =>
            simp [hv']
          | j + 1 =>
            rw [slot.eq_def (s :: rest) (j + 1)]
            simp [hv', hh]
        · rw [if_neg hh]
          match k with
          | 0 =>
            simp only [List.get?_cons_zero, Option.some.injEq, exists_eq_left', hv',
              Bool.false_eq_true, and_false, iff_false]
            rw [slot.eq_def]
            cases rest <;> simp
          | j + 1 =>
            rw [slot.eq_def (s :: rest) (j + 1)]
            simp only [if_neg hv, if_neg hh, List.get?_cons_succ]
            exact ih j (by omega) rest

/-! ## Loops -/

theorem for_loop_zero (body : Nat → Machine → Except Fault Machine) (m : Machine) :
    for_loop 0 body m = .ok m := rfl

theorem for_loop_succ (N : Nat) (body : Nat → Machine → Except Fault Machine) (m : Machine) :
    for_loop (N + 1) body m =
      match for_loop N body m with
      | .ok m' => body N m'
      | .error f => .error f := by
  unfold for_loop
  rw [List.range_succ, List.foldlM_append]
  cases h : List.foldlM (fun m i => body i m) m (List.range N) with
  | error f => rfl
  | ok m' =>
    show (do let x ← Except.ok m'; List.foldlM (fun m i => body i m) x [N]) = body N m'
    simp only [List.foldlM, bind_pure]
    rfl

/-- A loop whose body always returns runs the body's effect `N` times. -/
theorem for_loop_total (step : Nat → Machine → Machine)
    (body : Nat → Machine → Except Fault Machine)
    (hbody : ∀ i m, body i m = .ok (step i m)) (N : Nat) (m : Machine) :
    for_loop N body m = .ok ((List.range N).foldl (fun m i => step i m) m) := by
  induction N with
  | zero => rfl
  | succ N ih =>
    rw [for_loop_succ, ih]
    simp only [hbody, List.range_succ, List.foldl_append, List.foldl_cons, List.foldl_nil]

/-- A property the body preserves holds after a loop that returns. -/
theorem for_loop_invariant (P : Machine → Prop)
    (body : Nat → Machine → Except Fault Machine)
    (hbody : ∀ i m m', P m → body i m = .ok m' → P m') (N : Nat) :
    ∀ m m', P m → for_loop N body m = .ok m' → P m' := by
  induction N with
  | zero =>
    intro m m' hP h
    rw [for_loop_zero] at h
    injection h with h
    exact h ▸ hP
  | succ N ih =>
    intro m m' hP h
    rw [for_loop_succ] at h
    cases hN : for_loop N body m with
    | error f => rw [hN] at h; simp at h
    | ok m1 =>
      rw [hN] at h
      exact hbody N m1 m' (ih m m1 hP hN) h

/-! ## Memory -/

theorem set_at_length (pre : List Nat) (x b : Nat) (suf : List Nat) :
    (pre ++ x :: suf).set pre.length b = pre ++ b :: suf := by
  induction pre with
  | nil => rfl
  | cons p pre ih => simp [List.set, ih]

theorem store_bytes_fits (bytes : List Nat) :
    ∀ (pre suf : List Nat), bytes.length ≤ suf.length →
      store_bytes (pre ++ suf) pre.length bytes = .ok (pre ++ bytes ++ suf.drop bytes.length) := by
  induction bytes with
  | nil => intro pre suf _; simp [store_bytes]
  | cons b bs ih =>
    intro pre suf h
    match suf, h with
    | [], h => simp at h
    | x :: suf', h =>
      have hlen : bs.length ≤ suf'.length := by simpa using h
      have hst : store (pre ++ x :: suf') pre.length b = .ok (pre ++ b :: suf') := by
        unfold store
        rw [if_pos (by simp), set_at_length]
      rw [store_bytes, hst]
      simp only
      have h2 := ih (pre ++ [b]) suf' hlen
      simp only [List.length_append, List.length_singleton, List.append_assoc,
        List.singleton_append] at h2
      rw [h2]
      simp

theorem toDigitsCore_ne_nil (b : Nat) :
    ∀ (fuel n : Nat) (ds : List Char), ds ≠ [] → Nat.toDigitsCore b fuel n ds ≠ [] := by
  intro fuel
  induction fuel with
  | zero => intro n ds h; simpa [Nat.toDigitsCore] using h
  | succ fuel ih =>
    intro n ds _
    rw [Nat.toDigitsCore]
    split
    · simp
    · exact ih _ _ (by simp)

theorem decimal_text_ne_nil (v : Nat) : decimal_text v ≠ [] := by
  unfold decimal_text Nat.toDigits
  rw [Nat.toDigitsCore]
  intro h
  rw [List.map_eq_nil_iff] at h
  revert h
  split
  · simp
  · exact toDigitsCore_ne_nil 10 _ _ _ (by simp)

theorem snprintf_llu_fits (n v : Nat) (hn : 0 < n) :
    snprintf_llu (List.replicate n 0) n v =
      .ok ((decimal_text v).take (n - 1) ++
        0 :: List.replicate (n - 1 - ((decimal_text v).take (n - 1)).length) 0) := by
  unfold snprintf_llu
  rw [if_neg (by omega)]
  have hlen : ((decimal_text v).take (n - 1) ++ [0]).length ≤ (List.replicate n 0).length := by
    simp only [List.length_append, List.length_take, List.length_singleton, List.length_replicate]
    omega
  have h := store_bytes_fits ((decimal_text v).take (n - 1) ++ [0]) [] (List.replicate n 0) hlen
  simp only [List.nil_append, List.length_nil] at h
  rw [h, List.drop_replicate]
  have e : n - ((decimal_text v).take (n - 1) ++ [0]).length =
      n - 1 - ((decimal_text v).take (n - 1)).length := by
    simp only [List.length_append, List.length_singleton]
    omega
  rw [e]
  simp only [List.append_assoc, List.singleton_append]

theorem load_snprintf (n v : Nat) (hn : 2 ≤ n) :
    load ((decimal_text v).take (n - 1) ++
        0 :: List.replicate (n - 1 - ((decimal_text v).take (n - 1)).length) 0) 0 =
      .ok (first_byte v) := by
  unfold first_byte
  obtain ⟨k, hk⟩ : ∃ k, n - 1 = k + 1 := ⟨n - 2, by omega⟩
  cases ht : decimal_text v with
  | nil => exact absurd ht (decimal_text_ne_nil v)
  | cons c cs => rw [hk]; rfl

theorem char_to_u64_ascii (env : Env) {b : Nat} (h : b < 128) : char_to_u64 env b = b := by
  unfold char_to_u64
  have : b % 256 = b := Nat.mod_eq_of_lt (by omega)
  rw [this, if_neg (by omega)]

/-! ## The loop bodies in closed form -/

theorem vector_new_ok {env : Env} {n fill : Nat} {m : Machine} {buf : List Nat}
    {m1 : Machine} (h : vector_new env n fill m = .ok (buf, m1)) :
    buf = List.replicate n fill ∧ m1 = after_vector n m ∧ n ≤ VECTOR_MAX_SIZE ∧
      env.malloc_ok m.malloc_calls n = true := by
  unfold vector_new at h
  split at h
  · simp at h
  · split at h
    · rename_i h1 h2
      simp only [Except.ok.injEq, Prod.mk.injEq] at h
      exact ⟨h.1.symm, h.2.symm, by omega, h2⟩
    · simp at h

theorem snprintf_body_eq (env : Env) (args : Args) (i : Nat) (m : Machine) :
    snprintf_body env args i m =
      if VECTOR_MAX_SIZE < max args.buf_size 16 then .error .length_error
      else if env.malloc_ok m.malloc_calls (max args.buf_size 16) then
        .ok (consume (char_to_u64 env (first_byte i)) (after_vector (max args.buf_size 16) m))
      else .error .bad_alloc := by
  unfold snprintf_body vector_new
  by_cases h1 : VECTOR_MAX_SIZE < max args.buf_size 16
  · simp only [if_pos h1]
  · simp only [if_neg h1]
    cases h2 : env.malloc_ok m.malloc_calls (max args.buf_size 16) with
    | false => simp
    | true =>
      simp only [if_true, List.length_replicate]
      rw [snprintf_llu_fits _ _ (by omega)]
      simp only
      rw [load_snprintf _ _ (by omega)]
      rfl

theorem memcpy_body_eq (env : Env) (args : Args) (i : Nat) (m : Machine) :
    memcpy_body env args i m =
      if VECTOR_MAX_SIZE < max args.buf_size 16 then .error .length_error
      else if env.malloc_ok m.malloc_calls (max args.buf_size 16) then
        if env.malloc_ok (m.malloc_calls + 1) (max args.buf_size 16) then
          .ok (consume 120
            (after_vector (max args.buf_size 16) (after_vector (max args.buf_size 16) m)))
        else .error .bad_alloc
      else .error .bad_alloc := by
  unfold memcpy_body vector_new
  by_cases h1 : VECTOR_MAX_SIZE < max args.buf_size 16
  · simp only [if_pos h1]
  · simp only [if_neg h1]
    cases h2 : env.malloc_ok m.malloc_calls (max args.buf_size 16) with
    | false => simp
    | true =>
      simp only [if_true, List.length_replicate, if_neg h1]
      cases h3 : env.malloc_ok (m.malloc_calls + 1) (max args.buf_size 16) with
      | false => simp
      | true =>
        simp only [if_true, memcpy, List.length_replicate, le_refl, and_self,
          List.take_replicate, Nat.min_self, List.drop_replicate, Nat.sub_self,
          List.replicate_zero, List.append_nil]
        obtain ⟨k, hk⟩ : ∃ k, max args.buf_size 16 = k + 1 :=
          ⟨max args.buf_size 16 - 1, by omega⟩
        rw [hk, List.replicate_succ]
        simp only [load, List.get?_cons_zero]
        rw [char_to_u64_ascii env (by omega)]
        rfl

theorem malloc_body_eq (env : Env) (sz i : Nat) (m : Machine) (hsz : 0 < sz) :
    malloc_body env sz i m =
      if env.malloc_ok m.malloc_calls sz then
        .ok (consume (i % 256)
          { m with malloc_calls := m.malloc_calls + 1, mallocs := m.mallocs ++ [sz] })
      else .error .abort := by
  unfold malloc_body malloc
  obtain ⟨k, hk⟩ : ∃ k, sz = k + 1 := ⟨sz - 1, by omega⟩
  cases h : env.malloc_ok m.malloc_calls sz with
  | false => simp
  | true =>
    simp only [if_true]
    rw [hk, List.replicate_succ]
    simp [store, load]

/-! ## The workloads in closed form -/

/-- A loop whose body creates `k` buffers of `n` bytes and then consumes `f i`. -/
theorem consume_loop (f : Nat → Nat) (k n : Nat) (body : Nat → Machine → Except Fault Machine)
    (hbody : ∀ i m, body i m =
      .ok (consume (f i) { m with buffers := m.buffers ++ List.replicate k n }))
    (N : Nat) (m : Machine) (hg : m.g_sink < U64_MOD) :
    for_loop N body m =
      .ok { m with
        g_sink := sink_after m.g_sink ((List.range N).map f),
        sunk := m.sunk ++ (List.range N).map f,
        buffers := m.buffers ++ List.replicate (N * k) n } := by
  induction N with
  | zero =>
    rw [for_loop_zero]
    simp [sink_after, Nat.mod_eq_of_lt hg]
  | succ N ih =>
    rw [for_loop_succ, ih]
    simp only [hbody, consume, sink_after]
    congr 2
    · simp only [List.range_succ, List.map_append, List.sum_append, List.map_cons, List.map_nil,
        List.sum_cons, List.sum_nil]
      unfold U64_MOD
      omega
    · simp [List.range_succ]
    · rw [List.append_assoc, ← List.replicate_add]
      congr 2
      ring

theorem calls_workload_eq (N : Nat) (m : Machine) (hg : m.g_sink < U64_MOD) :
    calls_workload N m =
      .ok { m with
        g_sink := sink_after m.g_sink ((List.range N).map (fun i => int_to_u64 (to_int i))),
        sunk := m.sunk ++ (List.range N).map (fun i => int_to_u64 (to_int i)) } := by
  have h := consume_loop (fun i => int_to_u64 (to_int i)) 0 0 calls_body
    (fun i m => by simp [calls_body, empty_function]) N m hg
  simpa [calls_workload] using h

theorem malloc_workload_eq (env : Env) (args : Args)
    (hok : ∀ k s, env.malloc_ok k s = true) (N : Nat) (m : Machine) (hg : m.g_sink < U64_MOD) :
    malloc_workload env args N m =
      .ok { m with
        g_sink := sink_after m.g_sink ((List.range N).map (fun i => i % 256)),
        sunk := m.sunk ++ (List.range N).map (fun i => i % 256),
        malloc_calls := m.malloc_calls + N,
        mallocs := m.mallocs ++ List.replicate N (max args.malloc_size 8) } := by
  unfold malloc_workload
  induction N with
  | zero =>
    rw [for_loop_zero]
    simp [sink_after, Nat.mod_eq_of_lt hg]
  | succ N ih =>
    rw [for_loop_succ, ih]
    simp only [malloc_body_eq env _ _ _ (show 0 < max args.malloc_size 8 by omega), hok, if_true,
      consume, sink_after]
    congr 2
    · simp only [List.range_succ, List.map_append, List.sum_append, List.map_cons, List.map_nil,
        List.sum_cons, List.sum_nil]
      unfold U64_MOD
      omega
    · simp [List.range_succ]
    · rw [List.append_assoc, List.replicate_succ', ]

/-- The sizes `malloc` is asked for by a run of workload 4 that returns. -/
theorem malloc_workload_sizes (env : Env) (args : Args) (N : Nat) :
    ∀ (m m' : Machine), malloc_workload env args N m = .ok m' →
      m'.mallocs = m.mallocs ++ List.replicate N (max args.malloc_size 8) := by
  unfold malloc_workload
  induction N with
  | zero =>
    intro m m' h
    rw [for_loop_zero] at h
    injection h with h
    simp [← h]
  | succ N ih =>
    intro m m' h
    rw [for_loop_succ] at h
    cases hN : for_loop N (malloc_body env (max args.malloc_size 8)) m with
    | error f => rw [hN] at h; simp at h
    | ok m1 =>
      rw [hN] at h
      simp only at h
      rw [malloc_body_eq env _ _ _ (show 0 < max args.malloc_size 8 by omega)] at h
      split at h
      · injection h with h
        rw [← h, List.replicate_succ', ← List.append_assoc, ← ih m m1 hN]
        rfl
      · simp at h

/-! ## `bench`, step by step -/

theorem bench_eq (env : Env) (name : String) (n : Nat)
    (fn : Nat → Machine → Except Fault Machine) (m : Machine) :
    bench env name n fn m =
      match fn 1000 m with
      | .error f => .error f
      | .ok m1 =>
        match fn 1000 m1 with
        | .error f => .error f
        | .ok m2 =>
          match fn 1000 m2 with
          | .error f => .error f
          | .ok m3 =>
            match fn n (steady_now env m3).2 with
            | .error f => .error f
            | .ok m4 => .ok (bench_result env name n m3 m4) := by
  have hr : List.range 3 = [0, 1, 2] := by decide
  unfold bench
  rw [hr]
  simp only [List.foldlM, invoke]
  cases h1 : fn 1000 m with
  | error f => rfl
  | ok m1 =>
    cases h2 : fn 1000 m1 with
    | error f => simp [bind, Except.bind, h2]
    | ok m2 =>
      cases h3 : fn 1000 m2 with
      | error f => simp [bind, Except.bind, h2, h3]
      | ok m3 =>
        cases h4 : fn n (steady_now env m3).2 with
        | error f =>
          simp only [bind, Except.bind, h2, h3, pure, Except.pure, steady_now] at h4 ⊢
          rw [h4]
        | ok m4 =>
          simp only [bind, Except.bind, h2, h3, pure, Except.pure, steady_now] at h4 ⊢
          rw [h4]
          rfl

/-! ## What does not depend on the accumulator -/

theorem outcome_agree_cases {x y : Except Fault Machine} (h : outcome_agree x y) :
    (∃ a b, x = .ok a ∧ y = .ok b ∧ agree a b) ∨ (∃ e, x = .error e ∧ y = .error e) := h

theorem outcome_agree_ok {a b : Machine} (h : agree a b) : outcome_agree (.ok a) (.ok b) :=
  Or.inl ⟨a, b, rfl, rfl, h⟩

theorem outcome_agree_error (e : Fault) : outcome_agree (.error e) (.error e) :=
  Or.inr ⟨e, rfl, rfl⟩

theorem for_loop_respects (body : Nat → Machine → Except Fault Machine)
    (hbody : ∀ i m1 m2, agree m1 m2 → outcome_agree (body i m1) (body i m2)) (N : Nat) :
    ∀ m1 m2, agree m1 m2 → outcome_agree (for_loop N body m1) (for_loop N body m2) := by
  induction N with
  | zero => intro m1 m2 h; exact outcome_agree_ok h
  | succ N ih =>
    intro m1 m2 h
    rw [for_loop_succ, for_loop_succ]
    rcases outcome_agree_cases (ih m1 m2 h) with ⟨a, b, ha, hb, hab⟩ | ⟨e, ha, hb⟩
    · simp only [ha, hb]; exact hbody N a b hab
    · simp only [ha, hb]; exact outcome_agree_error e

theorem for_loop_quiet (body : Nat → Machine → Except Fault Machine)
    (hbody : ∀ i m m', body i m = .ok m' → m'.cout = m.cout) :
    quiet (fun N m => for_loop N body m) := by
  intro N m m' h
  exact for_loop_invariant (fun x => x.cout = m.cout) body
    (fun i x x' hx hx' => (hbody i x x' hx').trans hx) N m m' rfl h

theorem calls_workload_respects : respects calls_workload := by
  intro N m1 m2 h
  exact for_loop_respects calls_body (fun i x y hxy => outcome_agree_ok hxy) N m1 m2 h

theorem calls_workload_quiet : quiet calls_workload :=
  for_loop_quiet calls_body (fun i m m' h => by
    simp only [calls_body, empty_function, consume, Except.ok.injEq] at h
    rw [← h])

theorem calls_workload_total : total calls_workload :=
  fun N m => ⟨_, for_loop_total (fun i m => empty_function (to_int i) m) calls_body
    (fun _ _ => rfl) N m⟩

theorem snprintf_workload_respects (env : Env) (args : Args) :
    respects (snprintf_workload env args) := by
  intro N m1 m2 h
  refine for_loop_respects (snprintf_body env args) (fun i x y hxy => ?_) N m1 m2 h
  rw [snprintf_body_eq, snprintf_body_eq, hxy.2.2]
  split
  · exact outcome_agree_error _
  · split
    · exact outcome_agree_ok ⟨hxy.1, hxy.2.1, by simp [consume, after_vector, hxy.2.2]⟩
    · exact outcome_agree_error _

theorem snprintf_workload_quiet (env : Env) (args : Args) :
    quiet (snprintf_workload env args) :=
  for_loop_quiet (snprintf_body env args) (fun i m m' h => by
    rw [snprintf_body_eq] at h
    split at h
    · simp at h
    · split at h
      · injection h with h
        rw [← h]
        rfl
      · simp at h)

theorem snprintf_workload_total (env : Env) (args : Args)
    (hok : ∀ k s, env.malloc_ok k s = true) (hmax : max args.buf_size 16 ≤ VECTOR_MAX_SIZE) :
    total (snprintf_workload env args) :=
  fun N m => ⟨_, for_loop_total
    (fun i m => consume (char_to_u64 env (first_byte i)) (after_vector (max args.buf_size 16) m))
    (snprintf_body env args)
    (fun i m => by
      rw [snprintf_body_eq, if_neg (by omega), hok]
      rfl) N m⟩

theorem memcpy_workload_respects (env : Env) (args : Args) :
    respects (memcpy_workload env args) := by
  intro N m1 m2 h
  refine for_loop_respects (memcpy_body env args) (fun i x y hxy => ?_) N m1 m2 h
  rw [memcpy_body_eq, memcpy_body_eq, hxy.2.2]
  split
  · exact outcome_agree_error _
  · split
    · split
      · exact outcome_agree_ok ⟨hxy.1, hxy.2.1, by simp [consume, after_vector, hxy.2.2]⟩
      · exact outcome_agree_error _
    · exact outcome_agree_error _

theorem memcpy_workload_quiet (env : Env) (args : Args) :
    quiet (memcpy_workload env args) :=
  for_loop_quiet (memcpy_body env args) (fun i m m' h => by
    rw [memcpy_body_eq] at h
    split at h
    · simp at h
    · split at h
      · split at h
        · injection h with h
          rw [← h]
          rfl
        · simp at h
      · simp at h)

theorem memcpy_workload_total (env : Env) (args : Args)
    (hok : ∀ k s, env.malloc_ok k s = true) (hmax : max args.buf_size 16 ≤ VECTOR_MAX_SIZE) :
    total (memcpy_workload env args) :=
  fun N m => ⟨_, for_loop_total
    (fun _ m => consume 120
      (after_vector (max args.buf_size 16) (after_vector (max args.buf_size 16) m)))
    (memcpy_body env args)
    (fun i m => by
      rw [memcpy_body_eq, if_neg (by omega), hok, hok]
      rfl) N m⟩

/-- A fault no iteration ends with is not how the loop ends. -/
theorem for_loop_never (f : Fault) (body : Nat → Machine → Except Fault Machine)
    (hbody : ∀ i m, body i m ≠ .error f) (N : Nat) (m : Machine) :
    for_loop N body m ≠ .error f := by
  induction N with
  | zero => rw [for_loop_zero]; simp
  | succ N ih =>
    rw [for_loop_succ]
    cases hN : for_loop N body m with
    | error e =>
      simp only
      rw [hN] at ih
      exact ih
    | ok m1 => exact hbody N m1

/-- A loop whose first iteration ends with a fault ends with it. -/
theorem for_loop_first_fault (f : Fault) (body : Nat → Machine → Except Fault Machine)
    (m : Machine) (h0 : body 0 m = .error f) (N : Nat) :
    for_loop (N + 1) body m = .error f := by
  induction N with
  | zero => rw [for_loop_succ, for_loop_zero]; exact h0
  | succ N ih => rw [for_loop_succ, ih]

theorem snprintf_body_in_bounds (env : Env) (args : Args) (i : Nat) (m : Machine) :
    snprintf_body env args i m ≠ .error .out_of_bounds := by
  rw [snprintf_body_eq]
  split
  · simp
  · split <;> simp

theorem memcpy_body_in_bounds (env : Env) (args : Args) (i : Nat) (m : Machine) :
    memcpy_body env args i m ≠ .error .out_of_bounds := by
  rw [memcpy_body_eq]
  split
  · simp
  · split
    · split <;> simp
    · simp

theorem malloc_workload_respects (env : Env) (args : Args) :
    respects (malloc_workload env args) := by
  intro N m1 m2 h
  refine for_loop_respects (malloc_body env _) (fun i x y hxy => ?_) N m1 m2 h
  rw [malloc_body_eq env _ _ _ (show 0 < max args.malloc_size 8 by omega),
    malloc_body_eq env _ _ _ (show 0 < max args.malloc_size 8 by omega), hxy.2.2]
  split
  · exact outcome_agree_ok ⟨hxy.1, hxy.2.1, by simp [consume, hxy.2.2]⟩
  · exact outcome_agree_error _

theorem malloc_workload_quiet (env : Env) (args : Args) :
    quiet (malloc_workload env args) :=
  for_loop_quiet (malloc_body env _) (fun i m m' h => by
    rw [malloc_body_eq env _ _ _ (show 0 < max args.malloc_size 8 by omega)] at h
    split at h
    · simp only [consume, Except.ok.injEq] at h
      rw [← h]
    · simp at h)

theorem malloc_workload_total (env : Env) (args : Args)
    (hok : ∀ k s, env.malloc_ok k s = true) : total (malloc_workload env args) :=
  fun N m => ⟨_, for_loop_total
    (fun i m => consume (i % 256)
      { m with malloc_calls := m.malloc_calls + 1,
               mallocs := m.mallocs ++ [max args.malloc_size 8] })
    (malloc_body env _)
    (fun i m => by
      rw [malloc_body_eq env _ _ _ (show 0 < max args.malloc_size 8 by omega), hok]
      rfl) N m⟩

/-! ## `bench` and `main` on agreeing states -/

theorem bench_respects (env : Env) (name : String) (n : Nat)
    {fn : Nat → Machine → Except Fault Machine} (hfn : respects fn) {m m' : Machine}
    (h : agree m m') : bench_agree (bench env name n fn m) (bench env name n fn m') := by
  rw [bench_eq, bench_eq]
  rcases outcome_agree_cases (hfn 1000 m m' h) with ⟨a1, b1, ha, hb, h1⟩ | ⟨e, ha, hb⟩
  swap
  · simp only [ha, hb]; exact Or.inr ⟨e, rfl, rfl⟩
  simp only [ha, hb]
  rcases outcome_agree_cases (hfn 1000 a1 b1 h1) with ⟨a2, b2, ha, hb, h2⟩ | ⟨e, ha, hb⟩
  swap
  · simp only [ha, hb]; exact Or.inr ⟨e, rfl, rfl⟩
  simp only [ha, hb]
  rcases outcome_agree_cases (hfn 1000 a2 b2 h2) with ⟨a3, b3, ha, hb, h3⟩ | ⟨e, ha, hb⟩
  swap
  · simp only [ha, hb]; exact Or.inr ⟨e, rfl, rfl⟩
  simp only [ha, hb]
  have h3' : agree (steady_now env a3).2 (steady_now env b3).2 :=
    ⟨h3.1, by simp [steady_now, h3.2.1], h3.2.2⟩
  rcases outcome_agree_cases (hfn n _ _ h3') with ⟨a4, b4, ha, hb, h4⟩ | ⟨e, ha, hb⟩
  swap
  · simp only [ha, hb]; exact Or.inr ⟨e, rfl, rfl⟩
  simp only [ha, hb]
  have hms : (bench_result env name n a3 a4).ms = (bench_result env name n b3 b4).ms := by
    simp [bench_result, h3.2.1, h4.2.1]
  refine Or.inl ⟨_, _, rfl, rfl, hms, ?_, ?_, ?_⟩
  · simp [bench_result, print, steady_now, h3.2.1, h4.2.1, h4.1]
  · simp [bench_result, print, steady_now, h4.2.1]
  · simp [bench_result, print, steady_now, h4.2.2]

theorem bench_cout (env : Env) (name : String) (n : Nat)
    {fn : Nat → Machine → Except Fault Machine} (hfn : quiet fn) {m : Machine} {r : BenchRun}
    (h : bench env name n fn m = .ok r) :
    r.machine.cout = m.cout ++ bench_line env name r.ms := by
  rw [bench_eq] at h
  cases h1 : fn 1000 m with
  | error f => simp [h1] at h
  | ok m1 =>
    simp only [h1] at h
    cases h2 : fn 1000 m1 with
    | error f => simp [h2] at h
    | ok m2 =>
      simp only [h2] at h
      cases h3 : fn 1000 m2 with
      | error f => simp [h3] at h
      | ok m3 =>
        simp only [h3] at h
        cases h4 : fn n (steady_now env m3).2 with
        | error f => simp [h4] at h
        | ok m4 =>
          simp only [h4] at h
          injection h with h
          have c1 := hfn _ _ _ h1
          have c2 := hfn _ _ _ h2
          have c3 := hfn _ _ _ h3
          have c4 := hfn _ _ _ h4
          have c5 : (steady_now env m3).2.cout = m3.cout := rfl
          rw [← h]
          show m4.cout ++ _ = _
          rw [c4, c5, c3, c2, c1]
          rfl

theorem bench_total (env : Env) (name : String) (n : Nat)
    {fn : Nat → Machine → Except Fault Machine} (hfn : total fn) (m : Machine) :
    ∃ r, bench env name n fn m = .ok r := by
  rw [bench_eq]
  obtain ⟨m1, h1⟩ := hfn 1000 m
  obtain ⟨m2, h2⟩ := hfn 1000 m1
  obtain ⟨m3, h3⟩ := hfn 1000 m2
  obtain ⟨m4, h4⟩ := hfn n (steady_now env m3).2
  simp only [h1, h2, h3, h4]
  exact ⟨_, rfl⟩

theorem bench_agree_cases {x y : Except Fault BenchRun} (h : bench_agree x y) :
    (∃ a b, x = .ok a ∧ y = .ok b ∧ a.ms = b.ms ∧ agree a.machine b.machine) ∨
      (∃ e, x = .error e ∧ y = .error e) := h

theorem run_benchmarks_respects (env : Env) (args : Args) {m m' : Machine} (h : agree m m') :
    outcome_agree (run_benchmarks env args m) (run_benchmarks env args m') := by
  unfold run_benchmarks
  have k1 : bench_agree (bench env "1) empty function calls" args.iters calls_workload m)
      (bench env "1) empty function calls" args.iters calls_workload m') :=
    bench_respects env _ _ calls_workload_respects h
  rcases bench_agree_cases k1 with ⟨a1, b1, ha, hb, _, h1⟩ | ⟨e, ha, hb⟩
  swap
  · simp only [ha, hb]; exact outcome_agree_error e
  simp only [ha, hb]
  have k2 : bench_agree
      (bench env "2) snprintf to stack buffer" args.iters (snprintf_workload env args) a1.machine)
      (bench env "2) snprintf to stack buffer" args.iters (snprintf_workload env args)
        b1.machine) :=
    bench_respects env _ _ (snprintf_workload_respects env args) h1
  rcases bench_agree_cases k2 with ⟨a2, b2, ha, hb, _, h2⟩ | ⟨e, ha, hb⟩
  swap
  · simp only [ha, hb]; exact outcome_agree_error e
  simp only [ha, hb]
  have k3 : bench_agree
      (bench env "3) memcpy on stack buffer" args.iters (memcpy_workload env args) a2.machine)
      (bench env "3) memcpy on stack buffer" args.iters (memcpy_workload env args)
        b2.machine) :=
    bench_respects env _ _ (memcpy_workload_respects env args) h2
  rcases bench_agree_cases k3 with ⟨a3, b3, ha, hb, _, h3⟩ | ⟨e, ha, hb⟩
  swap
  · simp only [ha, hb]; exact outcome_agree_error e
  simp only [ha, hb]
  have k4 : bench_agree
      (bench env "4) malloc/free small blocks" args.iters (malloc_workload env args) a3.machine)
      (bench env "4) malloc/free small blocks" args.iters (malloc_workload env args)
        b3.machine) :=
    bench_respects env _ _ (malloc_workload_respects env args) h3
  rcases bench_agree_cases k4 with ⟨a4, b4, ha, hb, _, h4⟩ | ⟨e, ha, hb⟩
  swap
  · simp only [ha, hb]; exact outcome_agree_error e
  simp only [ha, hb]
  exact outcome_agree_ok h4

theorem run_benchmarks_cout (env : Env) (args : Args) {m m' : Machine}
    (h : run_benchmarks env args m = .ok m') :
    ∃ t1 t2 t3 t4, m'.cout = m.cout ++ report_lines env t1 t2 t3 t4 := by
  unfold run_benchmarks at h
  cases h1 : bench env "1) empty function calls" args.iters calls_workload m with
  | error f => simp [h1] at h
  | ok r1 =>
    simp only [h1] at h
    cases h2 : bench env "2) snprintf to stack buffer" args.iters (snprintf_workload env args)
        r1.machine with
    | error f => simp [h2] at h
    | ok r2 =>
      simp only [h2] at h
      cases h3 : bench env "3) memcpy on stack buffer" args.iters (memcpy_workload env args)
          r2.machine with
      | error f => simp [h3] at h
      | ok r3 =>
        simp only [h3] at h
        cases h4 : bench env "4) malloc/free small blocks" args.iters
            (malloc_workload env args) r3.machine with
        | error f => simp [h4] at h
        | ok r4 =>
          simp only [h4] at h
          injection h with h
          refine ⟨r1.ms, r2.ms, r3.ms, r4.ms, ?_⟩
          rw [← h, bench_cout env _ _ (malloc_workload_quiet env args) h4,
            bench_cout env _ _ (memcpy_workload_quiet env args) h3,
            bench_cout env _ _ (snprintf_workload_quiet env args) h2,
            bench_cout env _ _ calls_workload_quiet h1]
          simp only [report_lines, String.append_assoc]

theorem run_benchmarks_total (env : Env) (args : Args)
    (hok : ∀ k s, env.malloc_ok k s = true) (hmax : max args.buf_size 16 ≤ VECTOR_MAX_SIZE)
    (m : Machine) : ∃ m', run_benchmarks env args m = .ok m' := by
  unfold run_benchmarks
  obtain ⟨r1, h1⟩ := bench_total env "1) empty function calls" args.iters
    calls_workload_total m
  obtain ⟨r2, h2⟩ := bench_total env "2) snprintf to stack buffer" args.iters
    (snprintf_workload_total env args hok hmax) r1.machine
  obtain ⟨r3, h3⟩ := bench_total env "3) memcpy on stack buffer" args.iters
    (memcpy_workload_total env args hok hmax) r2.machine
  obtain ⟨r4, h4⟩ := bench_total env "4) malloc/free small blocks" args.iters
    (malloc_workload_total env args hok) r3.machine
  simp only [h1, h2, h3, h4]
  exact ⟨_, rfl⟩

/-- With a buffer size above `max_size()` the first warm-up of workload 2 ends
the run with `std::length_error`. -/
theorem run_benchmarks_length_error (env : Env) (args : Args)
    (hmax : VECTOR_MAX_SIZE < max args.buf_size 16) (m : Machine) :
    run_benchmarks env args m = .error .length_error := by
  unfold run_benchmarks
  obtain ⟨r1, h1⟩ := bench_total env "1) empty function calls" args.iters
    calls_workload_total m
  have h2 : bench env "2) snprintf to stack buffer" args.iters (snprintf_workload env args)
      r1.machine = .error .length_error := by
    rw [bench_eq]
    have hw : snprintf_workload env args 1000 r1.machine = .error .length_error :=
      for_loop_first_fault .length_error (snprintf_body env args) r1.machine
        (by rw [snprintf_body_eq, if_pos hmax]) 999
    simp only [hw]
  simp only [h1, h2]

theorem exit_status_zero (g : Nat) : exit_status g = 0 := by
  unfold exit_status
  rw [Nat.and_zero]
  rfl

/-! ## Runs of `main` that reach the benchmarks -/

theorem main_from_returned (env : Env) (g0 : Nat) {argv : List String} {a : Args}
    (hp : parse_args argv = .returned a) {status : Int} {out : String}
    (h : main_from env g0 argv = .returned status out) :
    status = 0 ∧ ∃ t1 t2 t3 t4, out = banner a ++ report_lines env t1 t2 t3 t4 := by
  unfold main_from at h
  rw [hp] at h
  simp only at h
  cases hr : run_benchmarks env a (print (banner a) (Machine.start g0)) with
  | error f => rw [hr] at h; simp at h
  | ok m' =>
    rw [hr] at h
    simp only [RunResult.returned.injEq] at h
    obtain ⟨t1, t2, t3, t4, ht⟩ := run_benchmarks_cout env a hr
    refine ⟨by rw [← h.1, exit_status_zero], t1, t2, t3, t4, ?_⟩
    rw [← h.2, ht]
    simp [print, Machine.start]

theorem main_from_total (env : Env) (g0 : Nat) {argv : List String} {a : Args}
    (hp : parse_args argv = .returned a) (hok : ∀ k s, env.malloc_ok k s = true)
    (hmax : max a.buf_size 16 ≤ VECTOR_MAX_SIZE) :
    ∃ out, main_from env g0 argv = .returned 0 out := by
  unfold main_from
  rw [hp]
  simp only
  obtain ⟨m', hm'⟩ := run_benchmarks_total env a hok hmax
    (print (banner a) (Machine.start g0))
  rw [hm']
  exact ⟨m'.cout, by simp only [exit_status_zero]⟩

theorem main_from_length_error (env : Env) (g0 : Nat) {argv : List String} {a : Args}
    (hp : parse_args argv = .returned a) (hmax : VECTOR_MAX_SIZE < max a.buf_size 16) :
    main_from env g0 argv = .fault .length_error := by
  unfold main_from
  rw [hp]
  simp only
  rw [run_benchmarks_length_error env a hmax]

/-- The run `--iters 1 --buf -1`: `std::stoull` turns `-1` into `2^64 - 1`, and
the first buffer of workload 2 cannot be built. -/
theorem main_buf_minus_one :
    main sample_env ["./main", "--iters", "1", "--buf", "-1"] = .fault .length_error :=
  main_from_length_error sample_env 0
    (show parse_args ["./main", "--iters", "1", "--buf", "-1"] =
      .returned { iters := 1, buf_size := 18446744073709551615, malloc_size := 32 } by decide)
    (by decide)

theorem main_from_sink_free (env : Env) (g1 g2 : Nat) (argv : List String) :
    main_from env g1 argv = main_from env g2 argv := by
  unfold main_from
  cases hp : parse_args argv with
  | thrown e => rfl
  | exited out status => rfl
  | returned a =>
    simp only
    have hag : agree (print (banner a) (Machine.start g1))
        (print (banner a) (Machine.start g2)) := ⟨rfl, rfl, rfl⟩
    rcases outcome_agree_cases (run_benchmarks_respects env a hag) with
      ⟨x, y, hx, hy, hxy⟩ | ⟨e, hx, hy⟩
    · rw [hx, hy]
      simp only [exit_status_zero, hxy.1]
    · rw [hx, hy]

theorem main_from_thrown (env : Env) (g0 : Nat) {argv : List String} {e : ParseError}
    (h : parse_args argv = .thrown e) : main_from env g0 argv = .terminated e := by
  unfold main_from; rw [h]

theorem main_from_exited (env : Env) (g0 : Nat) {argv : List String} {out : String}
    {status : Int} (h : parse_args argv = .exited out status) :
    main_from env g0 argv = .exited status out := by
  unfold main_from; rw [h]

theorem split_at_pair {args : List String} {k : Nat} {f v : String}
    (hf : args.get? k = some f) (hv : args.get? (k + 1) = some v) :
    args = args.take k ++ f :: v :: args.drop (k + 2) := by
  rw [List.get?_eq_getElem?] at hf hv
  obtain ⟨h1, e1⟩ := List.getElem?_eq_some.mp hf
  obtain ⟨h2, e2⟩ := List.getElem?_eq_some.mp hv
  conv_lhs => rw [← List.take_append_drop k args]
  rw [List.drop_eq_getElem_cons h1, List.drop_eq_getElem_cons h2, e1, e2]

/-- C2 (amended): a token that is none of the six flags is ignored at every
position except directly after a value-expecting flag read in flag position.
Inserting such a token at a position `k` of the argument list that the loop
does not read as a value leaves the outcome of `parse_args`, and so of `main`,
unchanged. -/
theorem unrecognized_token_ignored (prog : String) (args : List String) (k : Nat) (t : String)
    (hv : value_flag t = false) (hh : help_flag t = false) (hk : k ≤ args.length)
    (hs : slot args k ≠ .value) :
    parse_args (prog :: insert_at args k t) = parse_args (prog :: args) ∧
      ∀ env, main env (prog :: insert_at args k t) = main env (prog :: args) := by
  have key : parse_args (prog :: insert_at args k t) = parse_args (prog :: args) := by
    show parse_loop {} (args.take k ++ t :: args.drop k) = parse_loop {} args
    cases hsl : slot args k with
    | value => exact absurd hsl hs
    | flag =>
      obtain ⟨a', ha'⟩ := slot_flag_sound {} hk hsl
      have h1 := ha' (t :: args.drop k)
      have h2 := ha' (args.drop k)
      rw [List.take_append_drop] at h2
      rw [h1, h2, parse_loop_skip a' _ hv hh]
    | unread =>
      obtain ⟨o, ho⟩ := slot_unread_sound {} hk hsl
      have h1 := ho (t :: args.drop k)
      have h2 := ho (args.drop k)
      rw [List.take_append_drop] at h2
      rw [h1, h2]
  refine ⟨key, fun env => ?_⟩
  unfold main main_from
  rw [key]

/-- C3 (amended): a value-expecting flag read in flag position and followed by
a token from which `std::stoull` converts nothing (no digit after the leading
white space and one optional sign) or too much (a digit run above `2^64 - 1`)
makes `parse_args` end with the exception, and `main` end with nothing
printed. -/
theorem malformed_value_fatal (prog : String) (args : List String) (k : Nat) (f v : String)
    (hs : slot args k = .flag) (hf : args.get? k = some f) (hflag : value_flag f = true)
    (hv : args.get? (k + 1) = some v)
    (hbad : leading_digits v = [] ∨ U64_MOD ≤ decimal_value (leading_digits v)) :
    parse_args (prog :: args) =
        .thrown (if leading_digits v = [] then .invalid_argument else .out_of_range) ∧
      ∀ env, main env (prog :: args) =
        .terminated (if leading_digits v = [] then .invalid_argument else .out_of_range) := by
  have hst : stoull v =
      .error (if leading_digits v = [] then .invalid_argument else .out_of_range) := by
    unfold leading_digits at hbad ⊢
    unfold stoull
    simp only
    by_cases h0 : (strip_sign (v.data.dropWhile isspace)).2.takeWhile isdigit = []
    · rw [if_pos h0, if_pos h0]
    · rcases hbad with h | h
      · exact absurd h h0
      · rw [if_neg h0, if_pos h, if_neg h0]
  have hk : k ≤ args.length := by
    rw [List.get?_eq_getElem?] at hf
    exact Nat.le_of_lt (List.getElem?_eq_some.mp hf).1
  have key : parse_args (prog :: args) =
      .thrown (if leading_digits v = [] then .invalid_argument else .out_of_range) := by
    show parse_loop {} args = _
    obtain ⟨a', ha'⟩ := slot_flag_sound {} hk hs
    have h1 := ha' (f :: v :: args.drop (k + 2))
    rw [← split_at_pair hf hv] at h1
    rw [h1, parse_loop_value a' v _ hflag, hst]
  exact ⟨key, fun env => main_from_thrown env 0 key⟩

/-- C4: a value-expecting flag that is the last token and is read in flag
position raises no error: `parse_args` returns the parameter set it returns
for the list without that token. -/
theorem trailing_flag_ignored (prog : String) (args : List String) (f : String)
    (hflag : value_flag f = true) (hs : slot (args ++ [f]) args.length = .flag) :
    ∃ a, parse_args (prog :: (args ++ [f])) = .returned a ∧
      parse_args (prog :: args) = .returned a := by
  obtain ⟨a', ha'⟩ := slot_flag_sound {} (by simp) hs
  rw [List.take_left] at ha'
  refine ⟨a', ?_, ?_⟩
  · show parse_loop {} (args ++ [f]) = _
    rw [ha' [f], parse_loop_last a' hflag]
  · show parse_loop {} args = _
    have := ha' []
    rw [List.append_nil] at this
    rw [this, parse_loop]

/-! ## Sums of indices -/

theorem sum_range_twice (N : Nat) : (List.range N).sum * 2 = N * (N - 1) := by
  induction N with
  | zero => rfl
  | succ N ih =>
    rw [List.range_succ, List.sum_append, List.sum_singleton, Nat.add_mul, ih,
      Nat.add_sub_cancel]
    cases N with
    | zero => rfl
    | succ k => simp only [Nat.add_sub_cancel]; ring

theorem sum_range_eq (N : Nat) : (List.range N).sum = N * (N - 1) / 2 := by
  rw [← sum_range_twice, Nat.mul_div_cancel _ (by decide : 0 < 2)]

theorem narrowing_value (i : Nat) :
    int_to_u64 (to_int i) =
      if i % 4294967296 < 2147483648 then i % 4294967296
      else 18446744069414584320 + i % 4294967296 := by
  unfold to_int int_to_u64 U64_MOD
  split <;> omega

theorem narrowing_fixed (i : Nat) (hi : i < U64_MOD) :
    int_to_u64 (to_int i) = i ↔ (i < 2147483648 ∨ 18446744071562067968 ≤ i) := by
  rw [narrowing_value]
  unfold U64_MOD at hi
  split <;> omega

theorem index_round_trip {i : Nat} (h : i < 2147483648) : int_to_u64 (to_int i) = i := by
  unfold to_int int_to_u64 U64_MOD
  have h1 : i % 4294967296 = i := Nat.mod_eq_of_lt (by omega)
  rw [h1, if_pos h]
  omega

theorem calls_workload_small (N : Nat) (hN : N ≤ 2147483648) :
    (List.range N).map (fun i => int_to_u64 (to_int i)) = List.range N := by
  have : ∀ i ∈ List.range N, (fun i => int_to_u64 (to_int i)) i = id i := by
    intro i hi
    exact index_round_trip (by have := List.mem_range.mp hi; omega)
  rw [List.map_congr_left this, List.map_id]

theorem calls_workload_count (N : Nat) :
    ∀ m, ∃ m', calls_workload N m = .ok m' ∧ m'.sunk.length = m.sunk.length + N := by
  unfold calls_workload
  induction N with
  | zero => intro m; exact ⟨m, rfl, rfl⟩
  | succ N ih =>
    intro m
    obtain ⟨m1, h1, h2⟩ := ih m
    refine ⟨empty_function (to_int N) m1, ?_, ?_⟩
    · rw [for_loop_succ, h1]; rfl
    · simp only [empty_function, consume, List.length_append, List.length_singleton, h2]
      omega

/-- C1: on an argument list made of well-formed flag/value pairs only,
`parse_args` returns the parameter set whose three fields are the values of the
last `--iters`/`-n`, `--buf` and `--malloc` pairs, with the defaults 50000000,
64 and 32 where there is none; no arguments give the defaults; for
`--iters 1000 --buf 16 --malloc 8` the banner is the line
`Iters = 1000, buf size = 16, malloc size = 8` and an empty line, and it is what
the output of `main` starts with. -/
theorem parse_args_well_formed (prog : String) (ps : List (String × String))
    (hps : ∀ p ∈ ps, well_formed_pair p) :
    parse_args (prog :: pair_tokens ps) =
        .returned
          { iters := last_value ["--iters", "-n"] 50000000 ps,
            buf_size := last_value ["--buf"] 64 ps,
            malloc_size := last_value ["--malloc"] 32 ps } ∧
      parse_args [prog] = .returned { iters := 50000000, buf_size := 64, malloc_size := 32 } ∧
      parse_args [prog, "--iters", "1000", "--buf", "16", "--malloc", "8"] =
        .returned { iters := 1000, buf_size := 16, malloc_size := 8 } ∧
      banner { iters := 1000, buf_size := 16, malloc_size := 8 } =
        "Iters = 1000, buf size = 16, malloc size = 8\n\n" ∧
      (∀ env status out,
        main env [prog, "--iters", "1000", "--buf", "16", "--malloc", "8"] =
            .returned status out →
          ∃ t1 t2 t3 t4, out =
            "Iters = 1000, buf size = 16, malloc size = 8\n\n" ++ report_lines env t1 t2 t3 t4) ∧
      (∀ env, (∀ k s, env.malloc_ok k s = true) →
        ∃ out, main env [prog, "--iters", "1000", "--buf", "16", "--malloc", "8"] =
          .returned 0 out) := by
  have hp : parse_args [prog, "--iters", "1000", "--buf", "16", "--malloc", "8"] =
      .returned { iters := 1000, buf_size := 16, malloc_size := 8 } := by
    show parse_loop {} ["--iters", "1000", "--buf", "16", "--malloc", "8"] = _
    decide
  have hb : banner { iters := 1000, buf_size := 16, malloc_size := 8 } =
      "Iters = 1000, buf size = 16, malloc size = 8\n\n" := by decide
  refine ⟨?_, rfl, hp, hb, ?_, ?_⟩
  · have h := parse_loop_pairs ps {} [] hps
    rw [List.append_nil] at h
    show parse_loop {} (pair_tokens ps) = _
    rw [h, parse_loop]
  · intro env status out h
    obtain ⟨_, t1, t2, t3, t4, ht⟩ := main_from_returned env 0 hp h
    rw [hb] at ht
    exact ⟨t1, t2, t3, t4, ht⟩
  · intro env hok
    exact main_from_total env 0 hp hok (by decide)

/-- C5: when `--help` or `-h` follows zero or more well-formed flag/value
pairs, the run writes exactly the seven lines of the usage text and exits with
status 0, whatever the tokens after the help flag are. -/
theorem help_prints_usage (env : Env) (prog : String) (ps : List (String × String))
    (hflag : String) (hps : ∀ p ∈ ps, well_formed_pair p) (hh : help_flag hflag = true) :
    (∀ tail, main env (prog :: (pair_tokens ps ++ hflag :: tail)) = .exited 0 usage_text) ∧
      usage_text = String.join (List.map (fun l => l ++ "\n")
        ["Usage:",
         "  ./main [--iters N] [--buf B] [--malloc M]",
         "",
         "Options:",
         "  --iters, -n   Number of loop iterations per test (default 50,000,000)",
         "  --buf         Stack buffer size for snprintf/memcpy (default 64)",
         "  --malloc      Allocation size for malloc/free (default 32)"]) := by
  refine ⟨fun tail => ?_, by simp [usage_text, String.join]⟩
  apply main_from_exited
  show parse_loop {} (pair_tokens ps ++ hflag :: tail) = _
  rw [parse_loop_pairs ps {} _ hps, parse_loop_help _ _ hh]

/-! ## The buffers and blocks of workloads 2, 3 and 4 -/

theorem snprintf_workload_buffers (env : Env) (args : Args) (N : Nat) :
    ∀ m m', snprintf_workload env args N m = .ok m' →
      m'.buffers = m.buffers ++ List.replicate N (max args.buf_size 16) := by
  unfold snprintf_workload
  induction N with
  | zero =>
    intro m m' h
    rw [for_loop_zero] at h
    injection h with h
    simp [← h]
  | succ N ih =>
    intro m m' h
    rw [for_loop_succ] at h
    cases hN : for_loop N (snprintf_body env args) m with
    | error f => simp [hN] at h
    | ok m1 =>
      simp only [hN] at h
      rw [snprintf_body_eq] at h
      split at h
      · simp at h
      · split at h
        · injection h with h
          rw [← h, List.replicate_succ', ← List.append_assoc, ← ih m m1 hN]
          rfl
        · simp at h

theorem memcpy_workload_buffers (env : Env) (args : Args) (N : Nat) :
    ∀ m m', memcpy_workload env args N m = .ok m' →
      m'.buffers = m.buffers ++ List.replicate (N * 2) (max args.buf_size 16) := by
  unfold memcpy_workload
  induction N with
  | zero =>
    intro m m' h
    rw [for_loop_zero] at h
    injection h with h
    simp [← h]
  | succ N ih =>
    intro m m' h
    rw [for_loop_succ] at h
    cases hN : for_loop N (memcpy_body env args) m with
    | error f => simp [hN] at h
    | ok m1 =>
      simp only [hN] at h
      rw [memcpy_body_eq] at h
      have e : (N + 1) * 2 = N * 2 + 1 + 1 := by ring
      split at h
      · simp at h
      · split at h
        · split at h
          · injection h with h
            rw [← h, e, List.replicate_succ', List.replicate_succ', ← List.append_assoc,
              ← List.append_assoc, ← ih m m1 hN]
            rfl
          · simp at h
        · simp at h

/-- C6: workloads 2 and 3 build buffers of `max(buf_size, 16)` bytes, which is
16 for every `buf_size` up to 16 and `buf_size` itself from 16 on, and with a
`buf_size` up to 16 they do exactly what they do with `buf_size` 16; workload 4
asks `malloc` for `max(malloc_size, 8)` bytes, which is 8 for every
`malloc_size` up to 8 and `malloc_size` itself from 8 on, and with a
`malloc_size` up to 8 it does exactly what it does with `malloc_size` 8.  The
workloads return whenever the heap serves every request and the buffer size is
within `max_size()`; above `max_size()` workloads 2 and 3 end with
`std::length_error` in their first iteration, no buffer built. -/
theorem min_clamp (env : Env) (args : Args) (N : Nat) (m : Machine) :
    (∀ m', snprintf_workload env args N m = .ok m' →
        m'.buffers = m.buffers ++ List.replicate N (buffer_size args)) ∧
      (∀ m', memcpy_workload env args N m = .ok m' →
        m'.buffers = m.buffers ++ List.replicate (N * 2) (buffer_size args)) ∧
      (∀ m', malloc_workload env args N m = .ok m' →
        m'.mallocs = m.mallocs ++ List.replicate N (block_size args)) ∧
      ((∀ k s, env.malloc_ok k s = true) → buffer_size args ≤ VECTOR_MAX_SIZE →
        (∃ m', snprintf_workload env args N m = .ok m') ∧
        (∃ m', memcpy_workload env args N m = .ok m')) ∧
      ((∀ k s, env.malloc_ok k s = true) → ∃ m', malloc_workload env args N m = .ok m') ∧
      (VECTOR_MAX_SIZE < buffer_size args →
        snprintf_workload env args (N + 1) m = .error .length_error ∧
        memcpy_workload env args (N + 1) m = .error .length_error) ∧
      (args.buf_size ≤ 16 →
        buffer_size args = 16 ∧
        snprintf_workload env args N m =
          snprintf_workload env { args with buf_size := 16 } N m ∧
        memcpy_workload env args N m = memcpy_workload env { args with buf_size := 16 } N m) ∧
      (16 ≤ args.buf_size → buffer_size args = args.buf_size) ∧
      (args.malloc_size ≤ 8 →
        block_size args = 8 ∧
        malloc_workload env args N m =
          malloc_workload env { args with malloc_size := 8 } N m) ∧
      (8 ≤ args.malloc_size → block_size args = args.malloc_size) := by
  refine ⟨snprintf_workload_buffers env args N m, memcpy_workload_buffers env args N m,
    malloc_workload_sizes env args N m,
    fun hok hmax => ⟨snprintf_workload_total env args hok hmax N m,
      memcpy_workload_total env args hok hmax N m⟩,
    fun hok => malloc_workload_total env args hok N m,
    fun hmax => ⟨?_, ?_⟩,
    fun h => ⟨Nat.max_eq_right h, ?_, ?_⟩, fun h => Nat.max_eq_left h,
    fun h => ⟨Nat.max_eq_right h, ?_⟩, fun h => Nat.max_eq_left h⟩
  · exact for_loop_first_fault .length_error (snprintf_body env args) m
      (by rw [snprintf_body_eq, if_pos hmax]) N
  · exact for_loop_first_fault .length_error (memcpy_body env args) m
      (by rw [memcpy_body_eq, if_pos hmax]) N
  · unfold snprintf_workload snprintf_body
    simp only [Nat.max_eq_right h, Nat.max_self]
  · unfold memcpy_workload memcpy_body
    simp only [Nat.max_eq_right h, Nat.max_self]
  · unfold malloc_workload
    simp only [Nat.max_eq_right h, Nat.max_self]

/-- C6 at `--buf 4` and `--malloc 0`: three iterations of workloads 2, 3 and 4
do what they do at `--buf 16` and `--malloc 8`, and workload 2 returns having
built three buffers of 16 bytes. -/
theorem min_clamp_witness :
    snprintf_workload sample_env { buf_size := 4, malloc_size := 0 } 3 Machine.initial =
        snprintf_workload sample_env { buf_size := 16, malloc_size := 0 } 3 Machine.initial ∧
      memcpy_workload sample_env { buf_size := 4, malloc_size := 0 } 3 Machine.initial =
        memcpy_workload sample_env { buf_size := 16, malloc_size := 0 } 3 Machine.initial ∧
      malloc_workload sample_env { buf_size := 4, malloc_size := 0 } 3 Machine.initial =
        malloc_workload sample_env { buf_size := 4, malloc_size := 8 } 3 Machine.initial ∧
      ∃ m', snprintf_workload sample_env { buf_size := 4, malloc_size := 0 } 3
          Machine.initial = .ok m' ∧ m'.buffers = [16, 16, 16] := by
  have h := min_clamp sample_env { buf_size := 4, malloc_size := 0 } 3 Machine.initial
  refine ⟨(h.2.2.2.2.2.2.1 (by decide)).2.1, (h.2.2.2.2.2.2.1 (by decide)).2.2,
    (h.2.2.2.2.2.2.2.2.1 (by decide)).2, ?_⟩
  obtain ⟨m', hm'⟩ := (h.2.2.2.1 (fun _ _ => rfl) (by decide)).1
  exact ⟨m', hm', h.1 m' hm'⟩

/-- C7: no iteration and no run of workloads 2 and 3 accesses a buffer out of
bounds, whatever `buf_size` and the index are.  In workload 2 every buffer
that is built has `max(buf_size, 16)` bytes, at least 16; `snprintf` stores at
most that many minus one characters of the index and a zero byte, all inside
the buffer (the 20 digits of `2^64 - 1` are cut to 15 in a buffer of 16 bytes),
and byte 0 is read inside it.  In workload 3 source and destination have that
same size, which is not zero, `memcpy` copies exactly that many bytes, and byte
0 of the destination is read inside it.  Both workloads return whenever the
heap serves every request and the buffer size is within `max_size()`. -/
theorem buffer_accesses_in_bounds (env : Env) (args : Args) (i N : Nat) (m : Machine) :
    (∀ buf m1, vector_new env (buffer_size args) 0 m = .ok (buf, m1) →
        buf.length = buffer_size args ∧
        16 ≤ buf.length ∧
        snprintf_llu buf buf.length i =
          .ok ((decimal_text i).take (buffer_size args - 1) ++
            0 :: List.replicate
              (buffer_size args - 1 - ((decimal_text i).take (buffer_size args - 1)).length)
              0) ∧
        ((decimal_text i).take (buffer_size args - 1)).length ≤ buf.length - 1 ∧
        ((decimal_text i).take (buffer_size args - 1) ++
            0 :: List.replicate
              (buffer_size args - 1 - ((decimal_text i).take (buffer_size args - 1)).length)
              0).length = buf.length ∧
        load ((decimal_text i).take (buffer_size args - 1) ++
            0 :: List.replicate
              (buffer_size args - 1 - ((decimal_text i).take (buffer_size args - 1)).length)
              0) 0 = .ok (first_byte i)) ∧
      snprintf_llu (List.replicate 16 0) 16 18446744073709551615 =
        .ok [49, 56, 52, 52, 54, 55, 52, 52, 48, 55, 51, 55, 48, 57, 53, 0] ∧
      snprintf_body env args i m ≠ .error .out_of_bounds ∧
      snprintf_workload env args N m ≠ .error .out_of_bounds ∧
      (∀ src m1 dst m2, vector_new env (buffer_size args) 120 m = .ok (src, m1) →
        vector_new env src.length 0 m1 = .ok (dst, m2) →
          src.length = buffer_size args ∧
          dst.length = src.length ∧
          src.length ≠ 0 ∧
          memcpy dst src src.length = .ok src ∧
          load src 0 = .ok 120) ∧
      memcpy_body env args i m ≠ .error .out_of_bounds ∧
      memcpy_workload env args N m ≠ .error .out_of_bounds ∧
      ((∀ k s, env.malloc_ok k s = true) → buffer_size args ≤ VECTOR_MAX_SIZE →
        (∃ m', snprintf_workload env args N m = .ok m') ∧
        (∃ m', memcpy_workload env args N m = .ok m')) := by
  have h16 : 16 ≤ buffer_size args := Nat.le_max_right _ _
  refine ⟨?_, rfl, snprintf_body_in_bounds env args i m,
    for_loop_never .out_of_bounds _ (snprintf_body_in_bounds env args) N m, ?_,
    memcpy_body_in_bounds env args i m,
    for_loop_never .out_of_bounds _ (memcpy_body_in_bounds env args) N m,
    fun hok hmax => ⟨snprintf_workload_total env args hok hmax N m,
      memcpy_workload_total env args hok hmax N m⟩⟩
  · intro buf m1 h
    obtain ⟨hbuf, _, _, _⟩ := vector_new_ok h
    have hlen : buf.length = buffer_size args := by rw [hbuf, List.length_replicate]
    refine ⟨hlen, by omega, ?_, ?_, ?_, load_snprintf _ _ (by omega)⟩
    · rw [hlen, hbuf]
      exact snprintf_llu_fits _ _ (by omega)
    · rw [hlen]
      exact List.length_take_le _ _
    · simp only [List.length_append, List.length_cons, List.length_replicate,
        List.length_take, hlen]
      omega
  · intro src m1 dst m2 hs hd
    obtain ⟨hsrc, _, _, _⟩ := vector_new_ok hs
    obtain ⟨hdst, _, _, _⟩ := vector_new_ok hd
    have hlen : src.length = buffer_size args := by rw [hsrc, List.length_replicate]
    have hdl : dst.length = src.length := by rw [hdst, List.length_replicate]
    refine ⟨hlen, hdl, by omega, ?_, ?_⟩
    · unfold memcpy
      rw [if_pos ⟨le_refl _, by omega⟩, List.take_length, ← hdl, List.drop_length,
        List.append_nil]
    · obtain ⟨k, hk⟩ : ∃ k, buffer_size args = k + 1 := ⟨buffer_size args - 1, by omega⟩
      rw [hsrc, hk]
      rfl

/-- C8: when its four invocations of the workload return, `bench` has invoked
it exactly four times, with 1000, 1000, 1000 and `n`, in that order; the value
it prints and returns is the clock reading taken right after the fourth
invocation minus the one taken right before it, so the three warm-up
invocations all come before both readings; the invocations add up to
`3000 + n` iterations.  With workload 1 `bench` always returns, and `consume`
has then been called `3000 + n` times. -/
theorem bench_four_invocations (env : Env) (name : String) (n : Nat)
    (fn : Nat → Machine → Except Fault Machine) (m m1 m2 m3 m4 : Machine)
    (h1 : fn 1000 m = .ok m1) (h2 : fn 1000 m1 = .ok m2) (h3 : fn 1000 m2 = .ok m3)
    (h4 : fn n (steady_now env m3).2 = .ok m4) :
    (∃ r, bench env name n fn m = .ok r ∧
        r.log = [.invoke 1000, .invoke 1000, .invoke 1000, .timestamp (steady_now env m3).1,
          .invoke n, .timestamp (steady_now env m4).1] ∧
        invocations r.log = [1000, 1000, 1000, n] ∧
        (invocations r.log).sum = 3000 + n ∧
        r.ms = ((steady_now env m4).1 : Int) - ((steady_now env m3).1 : Int) ∧
        r.machine = print (name ++ ": " ++ env.fmt_ms r.ms ++ " ms\n") (steady_now env m4).2) ∧
      (∀ m0, ∃ r, bench env name n calls_workload m0 = .ok r ∧
        r.machine.sunk.length = m0.sunk.length + (3000 + n)) := by
  constructor
  · refine ⟨bench_result env name n m3 m4, ?_, rfl, rfl, ?_, rfl, rfl⟩
    · rw [bench_eq]
      simp only [h1, h2, h3, h4]
    · simp only [bench_result, invocations, List.sum_cons, List.sum_nil]
      omega
  · intro m0
    obtain ⟨a1, e1, c1⟩ := calls_workload_count 1000 m0
    obtain ⟨a2, e2, c2⟩ := calls_workload_count 1000 a1
    obtain ⟨a3, e3, c3⟩ := calls_workload_count 1000 a2
    obtain ⟨a4, e4, c4⟩ := calls_workload_count n (steady_now env a3).2
    refine ⟨bench_result env name n a3 a4, ?_, ?_⟩
    · rw [bench_eq]
      simp only [e1, e2, e3, e4]
    · have c5 : (steady_now env a3).2.sunk = a3.sunk := rfl
      have c6 : (bench_result env name n a3 a4).machine.sunk = a4.sunk := rfl
      rw [c6, c4, c5, c3, c2, c1]
      omega

/-- C8 on a workload that passes its argument to `consume`, timing 5
iterations from the initial state. -/
theorem bench_four_invocations_witness :
    ∃ r, bench sample_env "w" 5 (fun k x => .ok (consume k x)) Machine.initial = .ok r ∧
      r.log = [.invoke 1000, .invoke 1000, .invoke 1000, .timestamp 0, .invoke 5,
        .timestamp 10] ∧
      r.ms = 10 :=
  have h := (bench_four_invocations sample_env "w" 5 (fun k x => .ok (consume k x))
    Machine.initial (consume 1000 Machine.initial)
    (consume 1000 (consume 1000 Machine.initial))
    (consume 1000 (consume 1000 (consume 1000 Machine.initial)))
    (consume 5 (steady_now sample_env
      (consume 1000 (consume 1000 (consume 1000 Machine.initial)))).2)
    rfl rfl rfl rfl).1
  h.elim fun r hr => ⟨r, hr.1, hr.2.1, hr.2.2.2.2.1⟩

/-- C9: `main` returns `g_sink & 0`, which is 0 for every accumulator value; a
run gives the same result whatever the accumulator held at its start; from two
states that differ at most in the accumulator the four benchmarks end the same
way, with the same output; every run that returns has status 0 and has written
the banner of the parsed parameters followed by the four benchmark lines with
their fixed labels, in order.  A run returns whenever the arguments parse, the
heap serves every request and the buffer size is within `max_size()`; with a
buffer size above `max_size()` it does not return but ends with
`std::length_error`, whatever the accumulator holds. -/
theorem sink_never_influences_result (env : Env) (argv : List String) (g1 g2 : Nat) :
    (∀ g, exit_status g = 0) ∧
      main_from env g1 argv = main_from env g2 argv ∧
      (∀ args m1 m2, agree m1 m2 →
        outcome_agree (run_benchmarks env args m1) (run_benchmarks env args m2)) ∧
      (∀ a status out, parse_args argv = .returned a →
        main_from env g1 argv = .returned status out →
          status = 0 ∧ ∃ t1 t2 t3 t4, out =
            banner a ++
              ("1) empty function calls: " ++ env.fmt_ms t1 ++ " ms\n" ++
                ("2) snprintf to stack buffer: " ++ env.fmt_ms t2 ++ " ms\n") ++
                ("3) memcpy on stack buffer: " ++ env.fmt_ms t3 ++ " ms\n") ++
                ("4) malloc/free small blocks: " ++ env.fmt_ms t4 ++ " ms\n"))) ∧
      (∀ a, parse_args argv = .returned a → (∀ k s, env.malloc_ok k s = true) →
        buffer_size a ≤ VECTOR_MAX_SIZE →
          ∃ out, main_from env g1 argv = .returned 0 out) ∧
      (∀ a, parse_args argv = .returned a → VECTOR_MAX_SIZE < buffer_size a →
        main_from env g1 argv = .fault .length_error) := by
  refine ⟨exit_status_zero, main_from_sink_free env g1 g2 argv,
    fun args m1 m2 h => run_benchmarks_respects env args h, ?_, ?_, ?_⟩
  · intro a status out hp h
    exact main_from_returned env g1 hp h
  · intro a hp hok hmax
    exact main_from_total env g1 hp hok hmax
  · intro a hp hmax
    exact main_from_length_error env g1 hp hmax

/-- C10 (amended): iteration `i` of workload 1 adds to the accumulator the low
32 bits of `i` read as a signed number and widened to 64 bits: `i mod 2^32`
when that is below `2^31`, and `2^64 - 2^32 + i mod 2^32` otherwise.  For a
64-bit index this is `i` itself exactly when `i < 2^31` or `i >= 2^64 - 2^31`,
so a run of `N` iterations with `N` up to `2^31` adds the indices `0` to
`N - 1` and increases the accumulator by `N * (N - 1) / 2` modulo `2^64`. -/
theorem calls_workload_forwards_index (N : Nat) (m : Machine) (hg : m.g_sink < U64_MOD) :
    (∃ m', calls_workload N m = .ok m' ∧
        m'.sunk = m.sunk ++ (List.range N).map (fun i => int_to_u64 (to_int i))) ∧
      (∀ i, int_to_u64 (to_int i) =
        if i % 4294967296 < 2147483648 then i % 4294967296
        else 18446744069414584320 + i % 4294967296) ∧
      (∀ i, i < U64_MOD →
        (int_to_u64 (to_int i) = i ↔ (i < 2147483648 ∨ 18446744071562067968 ≤ i))) ∧
      (∀ i, i < 2147483648 → int_to_u64 (to_int i) = i) ∧
      (N ≤ 2147483648 →
        calls_workload N m =
          .ok { m with
            g_sink := (m.g_sink + N * (N - 1) / 2) % U64_MOD,
            sunk := m.sunk ++ List.range N }) := by
  refine ⟨⟨_, calls_workload_eq N m hg, rfl⟩, narrowing_value, narrowing_fixed,
    fun i hi => index_round_trip hi, fun hN => ?_⟩
  rw [calls_workload_eq N m hg, calls_workload_small N hN, sink_after, sum_range_eq]

/-- C10 (amended) on four iterations from the initial state. -/
theorem calls_workload_forwards_index_witness :
    Machine.initial.g_sink < U64_MOD ∧
      calls_workload 4 Machine.initial =
        .ok { Machine.initial with g_sink := (0 + 4 * (4 - 1) / 2) % U64_MOD,
                                   sunk := [] ++ List.range 4 } :=
  ⟨by decide,
    (calls_workload_forwards_index 4 Machine.initial (by decide)).2.2.2.2 (by decide)⟩

/-- C10 as stated fails at the index `2^31`: iteration `2^31` of workload 1 adds
`2^64 - 2^31` to the accumulator, not `2^31`. -/
theorem calls_workload_index_wraps :
    calls_body 2147483648 Machine.initial =
        .ok { Machine.initial with g_sink := 18446744071562067968,
                                   sunk := [18446744071562067968] } ∧
      (∃ m', calls_workload 2147483649 Machine.initial = .ok m' ∧
        m'.sunk.get? 2147483648 = some 18446744071562067968) ∧
      (18446744071562067968 : Nat) ≠ 2147483648 := by
  refine ⟨rfl, ⟨_, calls_workload_eq _ _ (by decide), ?_⟩, by decide⟩
  show (([] : List Nat) ++ (List.range 2147483649).map (fun i => int_to_u64 (to_int i))).get?
    2147483648 = _
  rw [List.nil_append, List.get?_eq_getElem?, List.getElem?_map,
    List.getElem?_range (by decide)]
  decide

/-- C1 on `--iters 1000 --buf 16 -n 7 --malloc 8`. -/
theorem parse_args_well_formed_witness :
    (∀ p ∈ [("--iters", "1000"), ("--buf", "16"), ("-n", "7"), ("--malloc", "8")],
        well_formed_pair p) ∧
      parse_args ["./main", "--iters", "1000", "--buf", "16", "-n", "7", "--malloc", "8"] =
        .returned { iters := 7, buf_size := 16, malloc_size := 8 } :=
  ⟨by decide,
    (parse_args_well_formed "./main"
      [("--iters", "1000"), ("--buf", "16"), ("-n", "7"), ("--malloc", "8")] (by decide)).1⟩

/-- C2 as stated fails directly after a value-expecting flag: `abc` inserted
after a trailing `--iters` is passed to `std::stoull`, which throws, and `7`
inserted between `--iters` and `5` becomes the iteration count. -/
theorem unrecognized_token_after_flag :
    value_flag "abc" = false ∧ help_flag "abc" = false ∧
      parse_args ("./main" :: ["--iters"]) = .returned {} ∧
      parse_args ("./main" :: insert_at ["--iters"] 1 "abc") = .thrown .invalid_argument ∧
      value_flag "7" = false ∧ help_flag "7" = false ∧
      parse_args ("./main" :: ["--iters", "5"]) = .returned { iters := 5 } ∧
      parse_args ("./main" :: insert_at ["--iters", "5"] 1 "7") = .returned { iters := 7 } := by
  decide

/-- C2 (amended) on `--iters 5` with `foo` inserted at the end. -/
theorem unrecognized_token_ignored_witness :
    slot ["--iters", "5"] 2 ≠ .value ∧
      parse_args ("./main" :: insert_at ["--iters", "5"] 2 "foo") =
        parse_args ("./main" :: ["--iters", "5"]) :=
  ⟨by decide,
    (unrecognized_token_ignored "./main" ["--iters", "5"] 2 "foo" (by decide) (by decide)
      (by decide) (by decide)).1⟩

/-- C3 as stated fails on `12abc`, `-1`, ` 7` and `+5`: `std::stoull` converts
each of them and `parse_args` returns. -/
theorem lenient_values_accepted :
    parse_args ["./main", "--iters", "12abc"] = .returned { iters := 12 } ∧
      parse_args ["./main", "--iters", "-1"] = .returned { iters := 18446744073709551615 } ∧
      parse_args ["./main", "--buf", " 7"] = .returned { buf_size := 7 } ∧
      parse_args ["./main", "--malloc", "+5"] = .returned { malloc_size := 5 } := by
  decide

/-- C3 (amended) on `--buf 16 --iters abc x`. -/
theorem malformed_value_fatal_witness :
    slot ["--buf", "16", "--iters", "abc", "x"] 2 = .flag ∧
      parse_args ["./main", "--buf", "16", "--iters", "abc", "x"] =
        .thrown .invalid_argument :=
  ⟨by decide,
    (malformed_value_fatal "./main" ["--buf", "16", "--iters", "abc", "x"] 2 "--iters" "abc"
      (by decide) (by decide) (by decide) (by decide) (by decide)).1⟩

/-- C4 on `--buf 16 --iters`. -/
theorem trailing_flag_ignored_witness :
    slot (["--buf", "16"] ++ ["--iters"]) 2 = .flag ∧
      ∃ a, parse_args ("./main" :: (["--buf", "16"] ++ ["--iters"])) = .returned a ∧
        parse_args ("./main" :: ["--buf", "16"]) = .returned a :=
  ⟨by decide, trailing_flag_ignored "./main" ["--buf", "16"] "--iters" (by decide) (by decide)⟩

/-- C5 on `--iters 5 -h --buf abc`. -/
theorem help_prints_usage_witness :
    help_flag "-h" = true ∧
      main sample_env ("./main" :: (pair_tokens [("--iters", "5")] ++ "-h" :: ["--buf", "abc"])) =
        .exited 0 usage_text :=
  ⟨by decide,
    (help_prints_usage sample_env "./main" [("--iters", "5")] "-h" (by decide) (by decide)).1
      ["--buf", "abc"]⟩

end SecBench
